import Mathlib

/-!
Shallow embedding of the heuristic code-review / debugging engine
(the non-LLM server of the AI-Based-Code-Reviewer-Debugger repository).

The engine is a collection of pure JavaScript functions over the input
`(code, language)` pair.  We embed source text as `List Char` (JavaScript
strings are sequences of code units; all inputs of interest are plain
text), JavaScript numbers used as counters as `Nat`, and the few
percentage/average computations as `Rat` (with JavaScript's non-finite
division results modelled as `Option.none`).  The regular-expression
scans of the source (`String.prototype.match` with the `g` flag) are
embedded as explicit left-to-right scanners that at each position try the
pattern, emit the (leftmost, non-overlapping, greedy) match and continue
after it, or advance one character on failure — exactly the semantics of
a JavaScript global-regex scan for the patterns used here (none of which
require backtracking beyond the documented greedy choice).
-/

namespace CodeReviewer

/-- JavaScript `\s`-style whitespace, ASCII subset (the character classes in
the engine's regexes are ASCII; we model the whitespace class by its ASCII
members). -/
def jsWS (c : Char) : Bool :=
  c = ' ' || c = '\t' || c = '\n' || c = '\r' || c = '\x0b' || c = '\x0c'

/-- JavaScript `\w`: `[A-Za-z0-9_]`. -/
def isWordChar (c : Char) : Bool := c.isAlphanum || c = '_'

/-- A single or double quote character (the class `["']`). -/
def isQuoteChar (c : Char) : Bool := c = '"' || c = '\x27'

/-- `code.split('\n')`: split on every newline; `"".split('\n') = [""]`. -/
def splitLines : List Char → List (List Char)
  | [] => [[]]
  | '\n' :: cs => [] :: splitLines cs
  | c :: cs =>
    match splitLines cs with
    | [] => [[c]]
    | r :: rs => (c :: r) :: rs

/-- `String.prototype.trim()` (both ends, whitespace as in `jsWS`). -/
def trimChars (l : List Char) : List Char :=
  ((l.dropWhile jsWS).reverse.dropWhile jsWS).reverse

/-- `line.startsWith(pat)`. -/
def startsWithS (pat : String) (l : List Char) : Bool := pat.data.isPrefixOf l

/-- `line.endsWith(pat)`. -/
def endsWithS (pat : String) (l : List Char) : Bool := pat.data.isSuffixOf l

/-- Occurrence of `pat` as a contiguous sublist of `l`
(JavaScript `l.includes(pat)`). -/
def occursIn (pat : List Char) : List Char → Bool
  | [] => pat.isEmpty
  | c :: cs => pat.isPrefixOf (c :: cs) || occursIn pat cs

/-- `code.includes(pat)` for a string pattern. -/
def containsS (pat : String) (l : List Char) : Bool := occursIn pat.data l

/-- `code.indexOf(pat)`, `none` for JavaScript's `-1`. -/
def firstOcc (pat : List Char) : List Char → Option Nat
  | [] => if pat.isEmpty then some 0 else none
  | c :: cs =>
    if pat.isPrefixOf (c :: cs) then some 0
    else (firstOcc pat cs).map (· + 1)

/-- `code.split('\n').findIndex(p) + 1`; JavaScript's `-1` for "no line"
becomes `0`. -/
def lineOfFirstP (code : List Char) (p : List Char → Bool) : Nat :=
  match (splitLines code).findIdx? p with
  | some i => i + 1
  | none => 0

/-- 1-based index of the first line containing the needle (0 when absent). -/
def lineOfFirstL (code : List Char) (pat : List Char) : Nat :=
  lineOfFirstP code (fun l => occursIn pat l)

/-- 1-based index of the first line containing the string needle. -/
def lineOfFirstS (code : List Char) (pat : String) : Nat :=
  lineOfFirstL code pat.data

/-- Count of occurrences of a single character (`(code.match(/x/g) || []).length`
for a one-character pattern). -/
def countChar (c : Char) (l : List Char) : Nat := (l.filter (· = c)).length

/-- `forEach((x, index) => ...)`: pair every element with its index,
starting at `k`. -/
def withIdx (k : Nat) : List α → List (Nat × α)
  | [] => []
  | a :: as => (k, a) :: withIdx (k + 1) as

/-! ## Data model -/

/-- The `line` field of a finding: a 1-based line number, or the engine's
non-numeric `'Multiple lines'` marker. -/
inductive LineRef where
  | num : Nat → LineRef
  | multiple : LineRef
deriving Repr, DecidableEq

/-- A raw finding as pushed by a checker, before fix synthesis: the object
literal `{type, message, line, fix}` handed to `generateFix` (its `fix`
field is the suggested-fix text used by the generic fallback). -/
structure RawBug where
  type : String
  message : String
  line : LineRef
  fix : String
deriving Repr, DecidableEq

/-- A synthesized fix: `{before, after, explanation}`. -/
structure Fix where
  before : String
  after : String
  explanation : String
deriving Repr, DecidableEq

/-- A finding as returned by the engine (after `generateFix`). -/
structure Finding where
  type : String
  message : String
  line : LineRef
  fix : Fix
deriving Repr, DecidableEq

/-- The before/after pair attached to a suggestion (source field `example`,
renamed because `example` is a Lean keyword). -/
structure BeforeAfter where
  before : String
  after : String
deriving Repr, DecidableEq

/-- An improvement suggestion (source field `example` is called `ex`). -/
structure Suggestion where
  message : String
  ex : BeforeAfter
deriving Repr, DecidableEq

/-- Counters per finding type (source fields `syntax`, `runtime`, `logical`,
`security`; renamed with a `Count` suffix because `syntax` is a Lean
keyword). -/
structure BugTypes where
  syntaxCount : Nat
  runtimeCount : Nat
  logicalCount : Nat
  securityCount : Nat
deriving Repr, DecidableEq

/-- The `debugging` section of the report. -/
structure Debugging where
  bugs : List Finding
  bugCount : Nat
  bugTypes : BugTypes
deriving Repr, DecidableEq

/-- The `codeAnalysis` section.  `codeToCommentPct` embeds the source's
`codeToCommentRatio` field (`(commentLines / totalLines) * 100`); a
JavaScript non-finite result (division by zero) is modelled as `none`. -/
structure CodeAnalysis where
  language : String
  totalLines : Nat
  commentLines : Nat
  functionCount : Nat
  complexity : String
  codeToCommentPct : Option Rat
deriving Repr, DecidableEq

/-- The `metrics` section. -/
structure Metrics where
  maintainability : String
  readability : String
  efficiency : String
deriving Repr, DecidableEq

/-- The value of `practices[language] || practices.javascript`: either one
of the table's arrays of guidance strings, or — when `language` names a
property the `practices` object literal inherits from `Object.prototype`
(e.g. `constructor`, `toString`) — the inherited member itself, a truthy
built-in function (or, for `__proto__`, the prototype object), which the
`||` passes through unchanged instead of the javascript list. -/
inductive PracticesValue where
  | list : List String → PracticesValue
  | protoMember : String → PracticesValue
deriving Repr, DecidableEq

/-- The full report returned by `analyzeCode`.  `bestPractices` is the
raw value of the best-practices lookup: a list of guidance strings for
every ordinary language value, but an inherited `Object.prototype`
member for a prototype-key language. -/
structure Report where
  codeAnalysis : CodeAnalysis
  suggestions : List Suggestion
  bestPractices : PracticesValue
  metrics : Metrics
  debugging : Debugging
deriving Repr, DecidableEq

/-! ## The rule catalog and the fix synthesizer (`generateFix`)

The source stores the fix templates in one nested JavaScript object
literal `fixes` and resolves them with dynamic property accesses
(`fixes[bug.type]?.[language] || fixes[bug.type]`, then
`languageFixes?.[bug.message]`, with the behavior of `||` on falsy
values).  We embed the JavaScript value universe needed here (strings and
string-keyed objects) and perform the same dynamic lookups. -/

/-- A JavaScript value as used by the fix catalog: a string, an object
literal with ordered string keys, or a member inherited from
`Object.prototype` (a built-in function such as `constructor` or
`toString`, or — for the key `__proto__` — the prototype object itself),
reached when a dynamic key names an inherited property. -/
inductive JVal where
  | str : String → JVal
  | obj : List (String × JVal) → JVal
  | protoMember : String → JVal

/-- The property names every object literal inherits from
`Object.prototype` (Node/V8): dynamic property access with one of these
keys on a plain object resolves through the prototype chain to a truthy
built-in value instead of `undefined`. -/
def objectProtoKeys : List String :=
  ["constructor", "hasOwnProperty", "isPrototypeOf",
   "propertyIsEnumerable", "toLocaleString", "toString", "valueOf",
   "__defineGetter__", "__defineSetter__", "__lookupGetter__",
   "__lookupSetter__", "__proto__"]

/-- First-match association lookup over an object literal's own keys
(keys in the catalog are distinct). -/
def assocGet : List (String × JVal) → String → Option JVal
  | [], _ => none
  | (k, v) :: rest, key => if key = k then some v else assocGet rest key

/-- Property access `v[key]`; `none` models `undefined`.  An own key wins;
otherwise a key inherited from `Object.prototype` yields the inherited
member.  Indexing a string by the property names used here yields
`undefined`.  Property access on an inherited member itself is modelled
as `undefined`: the engine only ever reads catalog messages and the fix
field names `before`/`after`/`explanation` off such a value, and none of
those keys names a property of the built-in functions or of
`Object.prototype`. -/
def jget : JVal → String → Option JVal
  | .str _, _ => none
  | .protoMember _, _ => none
  | .obj kvs, key =>
    match assocGet kvs key with
    | some v => some v
    | none =>
      if key ∈ objectProtoKeys then some (.protoMember key) else none

/-- JavaScript truthiness of the values reachable here: objects are
truthy, an inherited `Object.prototype` member (a built-in function or
the prototype object) is truthy, a string is truthy iff non-empty. -/
def jtruthy : JVal → Bool
  | .str s => !s.isEmpty
  | .obj _ => true
  | .protoMember _ => true

/-- Read a string property out of a lookup result; `undefined` or a
non-string property is modelled as the empty string (it is, in
particular, not a non-empty string). -/
def jstr : Option JVal → String
  | some (.str s) => s
  | _ => ""

/-- A fix-template leaf `{before, after, explanation}` of the catalog. -/
def fixEntry (b a e : String) : JVal :=
  .obj [("before", .str b), ("after", .str a), ("explanation", .str e)]

/-- The `'Missing semicolon'` entry of `fixes.syntax.javascript`. -/
def msJsFix : JVal := fixEntry
  "let result = 5 + 3"
  "let result = 5 + 3;"
  "Add a semicolon at the end of the statement"

/-- The `'Unmatched curly braces'` entry of `fixes.syntax.javascript`. -/
def ucbJsFix : JVal := fixEntry
  "if (true) \x7b\n    console.log(\"test\")\n"
  "if (true) \x7b\n    console.log(\"test\");\n\x7d"
  "Ensure all opening braces have matching closing braces"

/-- `fixes.syntax.javascript`. -/
def jsSyntaxFixes : JVal := .obj [
  ("Missing semicolon", msJsFix),
  ("Unmatched curly braces", ucbJsFix)]

/-- The `'Incorrect indentation'` entry of `fixes.syntax.python`. -/
def indentPyFix : JVal := fixEntry
  "def test():\nprint(\"test\")"
  "def test():\n    print(\"test\")"
  "Use 4 spaces for indentation in Python"

/-- `fixes.syntax.python`. -/
def pySyntaxFixes : JVal := .obj [
  ("Incorrect indentation", indentPyFix)]

/-- The `'Missing semicolon'` entry of `fixes.syntax.java`. -/
def msJavaFix : JVal := fixEntry
  "System.out.println(\"Hello World\")"
  "System.out.println(\"Hello World\");"
  "Add a semicolon at the end of the statement"

/-- `fixes.syntax.java`. -/
def javaSyntaxFixes : JVal := .obj [
  ("Missing semicolon", msJavaFix)]

/-- The `'Missing semicolon'` entry of `fixes.syntax.cpp`. -/
def msCppFix : JVal := fixEntry
  "cout << \"Hello World\""
  "cout << \"Hello World\";"
  "Add a semicolon at the end of the statement"

/-- `fixes.syntax.cpp`. -/
def cppSyntaxFixes : JVal := .obj [
  ("Missing semicolon", msCppFix)]

/-- `fixes.syntax`. -/
def syntaxFixes : JVal := .obj [
  ("javascript", jsSyntaxFixes), ("python", pySyntaxFixes),
  ("java", javaSyntaxFixes), ("cpp", cppSyntaxFixes)]

/-- The `'Potential undefined variable'` entry of `fixes.runtime.javascript`. -/
def undefJsFix : JVal := fixEntry
  "console.log(myVariable)"
  "let myVariable = \"value\";\nconsole.log(myVariable);"
  "Declare variables before using them"

/-- `fixes.runtime.javascript`. -/
def jsRuntimeFixes : JVal := .obj [
  ("Potential undefined variable", undefJsFix)]

/-- The `'Potential division by zero'` entry of `fixes.runtime.python`. -/
def divPyFix : JVal := fixEntry
  "result = number / divisor"
  "if divisor != 0:\n    result = number / divisor\nelse:\n    print(\"Error: Division by zero\")"
  "Add a check for zero before division"

/-- `fixes.runtime.python`. -/
def pyRuntimeFixes : JVal := .obj [
  ("Potential division by zero", divPyFix)]

/-- The `'Potential null pointer exception'` entry of `fixes.runtime.java`. -/
def npeJavaFix : JVal := fixEntry
  "object.method()"
  "if (object != null) \x7b\n    object.method();\n\x7d"
  "Add null check before accessing object methods"

/-- `fixes.runtime.java`. -/
def javaRuntimeFixes : JVal := .obj [
  ("Potential null pointer exception", npeJavaFix)]

/-- The `'Potential memory leak'` entry of `fixes.runtime.cpp`. -/
def leakCppFix : JVal := fixEntry
  "int* ptr = new int(5)"
  "int* ptr = new int(5);\n// ... use ptr ...\ndelete ptr;"
  "Always free allocated memory with delete"

/-- `fixes.runtime.cpp`. -/
def cppRuntimeFixes : JVal := .obj [
  ("Potential memory leak", leakCppFix)]

/-- `fixes.runtime`. -/
def runtimeFixes : JVal := .obj [
  ("javascript", jsRuntimeFixes), ("python", pyRuntimeFixes),
  ("java", javaRuntimeFixes), ("cpp", cppRuntimeFixes)]

/-- The `'Potential infinite loop'` entry of `fixes.logical`. -/
def infLoopFix : JVal := fixEntry
  "while(true) \x7b\n    // code\n\x7d"
  "let condition = true;\nwhile(condition) \x7b\n    // code\n    condition = false; // Add termination condition\n\x7d"
  "Add a proper termination condition to the loop"

/-- The `'Unreachable code'` entry of `fixes.logical`. -/
def unreachFix : JVal := fixEntry
  "return value;\nconsole.log(\"This will never run\");"
  "console.log(\"This will run\");\nreturn value;"
  "Move the return statement to the end of the function"

/-- `fixes.logical` (keyed directly by message, not by language). -/
def logicalFixes : JVal := .obj [
  ("Potential infinite loop", infLoopFix),
  ("Unreachable code", unreachFix)]

/-- The `'Potential SQL injection vulnerability'` entry of `fixes.security`. -/
def sqlFix : JVal := fixEntry
  "query = \"SELECT * FROM users WHERE id = \" + userInput"
  "const query = \"SELECT * FROM users WHERE id = ?\";\nconst params = [userInput];"
  "Use parameterized queries to prevent SQL injection"

/-- The `'Potential XSS vulnerability'` entry of `fixes.security`. -/
def xssFix : JVal := fixEntry
  "element.innerHTML = userInput"
  "element.textContent = userInput;"
  "Use textContent instead of innerHTML to prevent XSS attacks"

/-- `fixes.security` (keyed directly by message, not by language). -/
def securityFixes : JVal := .obj [
  ("Potential SQL injection vulnerability", sqlFix),
  ("Potential XSS vulnerability", xssFix)]

/-- The `fixes` object literal of `generateFix`. -/
def fixesCatalog : JVal := .obj [
  ("syntax", syntaxFixes), ("runtime", runtimeFixes),
  ("logical", logicalFixes), ("security", securityFixes)]

/-- The generic fallback fix object
`{before: 'Original code', after: bug.fix, explanation: bug.fix}`. -/
def fallbackFix (bug : RawBug) : JVal :=
  .obj [("before", .str "Original code"), ("after", .str bug.fix),
        ("explanation", .str bug.fix)]

/-- `const languageFixes = fixes[bug.type]?.[language] || fixes[bug.type];`
(`undefined` is `none`; `||` takes its right operand on a falsy left). -/
def languageFixesOf (type language : String) : Option JVal :=
  let a : Option JVal := jget fixesCatalog type
  match a with
  | some v =>
    match jget v language with
    | some w => if jtruthy w then some w else a
    | none => a
  | none => none

/-- `const fix = languageFixes?.[bug.message] || {before: 'Original code',
after: bug.fix, explanation: bug.fix};` -/
def resolvedFixObj (bug : RawBug) (language : String) : JVal :=
  match languageFixesOf bug.type language with
  | some v =>
    match jget v bug.message with
    | some w => if jtruthy w then w else fallbackFix bug
    | none => fallbackFix bug
  | none => fallbackFix bug

/-- The `fix` record placed on the returned finding:
`{before: fix.before, after: fix.after, explanation: fix.explanation}`. -/
def synthFix (bug : RawBug) (language : String) : Fix :=
  let fixObj := resolvedFixObj bug language
  { before := jstr (jget fixObj "before"),
    after := jstr (jget fixObj "after"),
    explanation := jstr (jget fixObj "explanation") }

/-- `generateFix(bug, language)`:
`return {...bug, fix: {before: fix.before, after: fix.after, explanation: fix.explanation}};` -/
def generateFix (bug : RawBug) (language : String) : Finding :=
  { type := bug.type, message := bug.message, line := bug.line,
    fix := synthFix bug language }

/-! ## Global-regex scanners

`scanMatches step fuel s` models a JavaScript global-regex scan: at each
position try the pattern (`step` returns the match and the remainder after
it, or `none`); on success emit the match and continue after it, on failure
advance one character.  The fuel argument makes the recursion structural;
every `step` used here consumes at least one character, so `fuel = s.length`
makes the scan exact. -/

def scanMatches (step : List Char → Option (List Char × List Char)) :
    Nat → List Char → List (List Char)
  | 0, _ => []
  | _ + 1, [] => []
  | fuel + 1, c :: cs =>
    match step (c :: cs) with
    | some (m, rest) => m :: scanMatches step fuel rest
    | none => scanMatches step fuel cs

/-- Like `scanMatches` but the pattern may look at the previous character
(for `\b` word boundaries).  After a match the previous character becomes
the match's last character. -/
def scanMatchesB
    (step : Option Char → List Char → Option (List Char × List Char)) :
    Nat → Option Char → List Char → List (List Char)
  | 0, _, _ => []
  | _ + 1, _, [] => []
  | fuel + 1, prev, c :: cs =>
    match step prev (c :: cs) with
    | some (m, rest) => m :: scanMatchesB step fuel (some (m.getLastD c)) rest
    | none => scanMatchesB step fuel (some c) cs

/-- `prev` is a word boundary position for a following word character. -/
def prevNonWord : Option Char → Bool
  | none => true
  | some p => !isWordChar p

/-- `[^)]*$` from the current position: no closing parenthesis up to the
end of the source. -/
def allNoRParen (l : List Char) : Bool := l.all (fun c => c ≠ ')')

/-- Continuation of `/\b\w+\s*\([^)]*$/` inside its `\s*` part: more
whitespace, then `(`, then `[^)]*$`. -/
def callTailWS : List Char → Bool
  | [] => false
  | c :: cs =>
    if c = '(' then allNoRParen cs
    else if jsWS c then callTailWS cs
    else false

/-- Continuation of `/\b\w+\s*\([^)]*$/` after its first word character:
more word characters, then optional whitespace, then `(`, then `[^)]*$`. -/
def callTailW : List Char → Bool
  | [] => false
  | c :: cs =>
    if isWordChar c then callTailW cs
    else if c = '(' then allNoRParen cs
    else if jsWS c then callTailWS cs
    else false

/-- The single match of `code.match(/\b\w+\s*\([^)]*$/g)`, if any.  Every
match of this pattern extends to the end of the source, so a global scan
yields at most one match; the scan returns the leftmost starting position
with a word boundary. -/
def unclosedCallAux (prev : Option Char) : List Char → Option (List Char)
  | [] => none
  | c :: cs =>
    if prevNonWord prev && isWordChar c && callTailW cs then some (c :: cs)
    else unclosedCallAux (some c) cs

/-- `code.match(/\b\w+\s*\([^)]*$/g) || []` as a list of matches. -/
def unclosedCallMatches (code : List Char) : List (List Char) :=
  match unclosedCallAux none code with
  | some m => [m]
  | none => []

/-- The single match of `code.match(/["'][^"']*$/g)`, if any: the leftmost
quote character that is not followed by any further quote character (every
match extends to the end of the source, so there is at most one). -/
def unclosedQuoteAux : List Char → Option (List Char)
  | [] => none
  | c :: cs =>
    if isQuoteChar c && cs.all (fun d => !isQuoteChar d) then some (c :: cs)
    else unclosedQuoteAux cs

/-- `code.match(/["'][^"']*$/g) || []` as a list of matches. -/
def unclosedQuoteMatches (code : List Char) : List (List Char) :=
  match unclosedQuoteAux code with
  | some m => [m]
  | none => []

/-- One alternative `kw\s+(\w+)` of the declaration regex: the keyword,
at least one whitespace character, at least one word character (both runs
greedy). -/
def parseDeclKw (kw : List Char) (s : List Char) :
    Option (List Char × List Char) :=
  if kw.isPrefixOf s then
    let rest := s.drop kw.length
    let ws := rest.takeWhile jsWS
    if ws.isEmpty then none
    else
      let rest2 := rest.drop ws.length
      let w := rest2.takeWhile isWordChar
      if w.isEmpty then none
      else some (kw ++ ws ++ w, rest2.drop w.length)
  else none

/-- One attempt of `/var\s+(\w+)|let\s+(\w+)|const\s+(\w+)/` at the current
position (alternatives tried in regex order). -/
def declStep (s : List Char) : Option (List Char × List Char) :=
  match parseDeclKw "var".data s with
  | some r => some r
  | none =>
    match parseDeclKw "let".data s with
    | some r => some r
    | none => parseDeclKw "const".data s

/-- `code.match(/var\s+(\w+)|let\s+(\w+)|const\s+(\w+)/g) || []`. -/
def declMatches (code : List Char) : List (List Char) :=
  scanMatches declStep code.length code

/-- One attempt of `/\b[a-zA-Z_]\w*\b/` at the current position: a word
boundary, a letter or underscore, then a greedy run of word characters
(after which the trailing `\b` holds automatically). -/
def identStep (prev : Option Char) : List Char → Option (List Char × List Char)
  | [] => none
  | c :: cs =>
    if prevNonWord prev && (c.isAlpha || c = '_') then
      some (c :: cs.takeWhile isWordChar, cs.dropWhile isWordChar)
    else none

/-- `code.match(/\b[a-zA-Z_]\w*\b/g) || []`: all identifier-like tokens. -/
def identTokens (code : List Char) : List (List Char) :=
  scanMatchesB identStep code.length none code

/-- One attempt of `/[a-z][a-zA-Z0-9]*/` at the current position (no word
boundary in this pattern). -/
def lowerStep : List Char → Option (List Char × List Char)
  | [] => none
  | c :: cs =>
    if c.isLower then
      some (c :: cs.takeWhile Char.isAlphanum, cs.dropWhile Char.isAlphanum)
    else none

/-- `code.match(/[a-z][a-zA-Z0-9]*/g) || []`: lowercase-led tokens, used by
the readability metric and the naming suggestions. -/
def lowerTokens (code : List Char) : List (List Char) :=
  scanMatches lowerStep code.length code

/-- One attempt of an ordered alternation of literal keywords
(`/if|else|for|while|switch|catch/` and `/for|while/`). -/
def altStep (kws : List (List Char)) (s : List Char) :
    Option (List Char × List Char) :=
  match kws with
  | [] => none
  | kw :: rest =>
    if kw.isPrefixOf s then some (kw, s.drop kw.length) else altStep rest s

/-- Matches of `code.match(/if|else|for|while|switch|catch/g) || []`. -/
def ctrlKwMatches (code : List Char) : List (List Char) :=
  scanMatches
    (altStep ["if".data, "else".data, "for".data, "while".data,
              "switch".data, "catch".data]) code.length code

/-- Matches of `code.match(/for|while/g) || []`. -/
def loopKwMatches (code : List Char) : List (List Char) :=
  scanMatches (altStep ["for".data, "while".data]) code.length code

/-- Split a list at the first occurrence of a character: the part before
it and the part after it. -/
def breakAtChar (ch : Char) : List Char → Option (List Char × List Char)
  | [] => none
  | c :: cs =>
    if c = ch then some ([], cs)
    else
      match breakAtChar ch cs with
      | some (a, r) => some (c :: a, r)
      | none => none

/-- One attempt of `/\([^)]*\)/` at the current position: an opening
parenthesis, everything up to the next closing parenthesis, and that
closing parenthesis. -/
def parenStep : List Char → Option (List Char × List Char)
  | [] => none
  | c :: cs =>
    if c = '(' then
      match breakAtChar ')' cs with
      | some (inside, rest) => some ('(' :: inside ++ [')'], rest)
      | none => none
    else none

/-- Matches of `code.match(/\([^)]*\)/g) || []`. -/
def parenGroupMatches (code : List Char) : List (List Char) :=
  scanMatches parenStep code.length code

/-- Index of the last occurrence of `pat` in `l` (the greedy backtracking
choice of `.*` before a final literal). -/
def lastOccAux (pat : List Char) : List Char → Option Nat
  | [] => if pat.isEmpty then some 0 else none
  | c :: cs =>
    match lastOccAux pat cs with
    | some i => some (i + 1)
    | none => if pat.isPrefixOf (c :: cs) then some 0 else none

/-- One alternative `kw.*kw` of the nested-loop regex: the keyword, then a
greedy run of non-newline characters (`.` does not match `\n`), then the
keyword again — i.e. up to the last further occurrence of the keyword on
the same line. -/
def nestedAlt (kw : List Char) (s : List Char) :
    Option (List Char × List Char) :=
  if kw.isPrefixOf s then
    let rest := s.drop kw.length
    let seg := rest.takeWhile (· ≠ '\n')
    match lastOccAux kw seg with
    | some j =>
      let len := kw.length + j + kw.length
      some (s.take len, s.drop len)
    | none => none
  else none

/-- One attempt of `/for.*for|while.*while/` at the current position. -/
def nestedStep (s : List Char) : Option (List Char × List Char) :=
  match nestedAlt "for".data s with
  | some r => some r
  | none => nestedAlt "while".data s

/-- Matches of `code.match(/for.*for|while.*while/g) || []`. -/
def nestedLoopMatches (code : List Char) : List (List Char) :=
  scanMatches nestedStep code.length code

/-! ## Bug Finder

Each checker in the source pushes `generateFix({...}, language)` objects
onto its `errors` array.  We embed every checker as a producer of the raw
`{type, message, line, fix}` objects, and apply `generateFix` by a single
`map` at the end — one `generateFix` application per pushed object, in
push order, exactly as in the source. -/

/-- The per-line condition of the javascript missing-semicolon rule
(on the trimmed line): the body of the `if` at the top of the
`'javascript'` case of `checkSyntaxErrors`. -/
def jsSemiCond (t : List Char) : Bool :=
  !t.isEmpty &&
  !endsWithS ";" t &&
  !endsWithS "\x7b" t &&
  !endsWithS "\x7d" t &&
  !containsS "if" t &&
  !containsS "for" t &&
  !containsS "while" t &&
  !containsS "function" t &&
  !startsWithS "//" t &&
  !startsWithS "/*" t &&
  !startsWithS "*" t &&
  !startsWithS "const" t &&
  !startsWithS "let" t &&
  !startsWithS "var" t

/-- The per-line condition of the java missing-semicolon rule (same shape,
`class` instead of `function`, no declaration-keyword exemptions). -/
def javaSemiCond (t : List Char) : Bool :=
  !t.isEmpty &&
  !endsWithS ";" t &&
  !endsWithS "\x7b" t &&
  !endsWithS "\x7d" t &&
  !containsS "if" t &&
  !containsS "for" t &&
  !containsS "while" t &&
  !containsS "class" t &&
  !startsWithS "//" t &&
  !startsWithS "/*" t &&
  !startsWithS "*" t

/-- The per-line condition of the cpp missing-semicolon rule (identical in
the source to the java one). -/
def cppSemiCond (t : List Char) : Bool :=
  !t.isEmpty &&
  !endsWithS ";" t &&
  !endsWithS "\x7b" t &&
  !endsWithS "\x7d" t &&
  !containsS "if" t &&
  !containsS "for" t &&
  !containsS "while" t &&
  !containsS "class" t &&
  !startsWithS "//" t &&
  !startsWithS "/*" t &&
  !startsWithS "*" t

/-- One missing-semicolon raw finding per offending line, 1-based index
(`lines.forEach((line, index) => ...)`, starting at index `k`). -/
def missingSemiBugsFrom (cond : List Char → Bool) (k : Nat) :
    List (List Char) → List RawBug
  | [] => []
  | l :: ls =>
    (if cond (trimChars l) then
      [{ type := "syntax", message := "Missing semicolon",
         line := .num (k + 1),
         fix := "Add semicolon at the end of the statement" }]
     else []) ++ missingSemiBugsFrom cond (k + 1) ls

/-- The unmatched-curly-braces rule: compare the total counts of `{` and
`}` in the whole source. -/
def braceBugs (code : List Char) : List RawBug :=
  if countChar '\x7b' code ≠ countChar '\x7d' code then
    [{ type := "syntax", message := "Unmatched curly braces",
       line := .multiple,
       fix := "Check and match all opening and closing braces" }]
  else []

/-- One raw finding per match of the unterminated-call pattern, located by
the first line containing the matched text. -/
def callBugs (code : List Char) : List RawBug :=
  (unclosedCallMatches code).map fun m =>
    { type := "syntax", message := "Missing closing parenthesis in function call",
      line := .num (lineOfFirstL code m),
      fix := "Add closing parenthesis to complete the function call" }

/-- One raw finding per match of the unterminated-string pattern. -/
def quoteBugs (code : List Char) : List RawBug :=
  (unclosedQuoteMatches code).map fun m =>
    { type := "syntax", message := "Unclosed string literal",
      line := .num (lineOfFirstL code m),
      fix := "Add closing quote to complete the string" }

/-- Python indentation rule: flag every line whose leading-whitespace run
has length not divisible by 4. -/
def indentBugsFrom (k : Nat) : List (List Char) → List RawBug
  | [] => []
  | l :: ls =>
    (if (l.takeWhile jsWS).length % 4 ≠ 0 then
      [{ type := "syntax", message := "Incorrect indentation",
         line := .num (k + 1), fix := "Use 4 spaces for indentation" }]
     else []) ++ indentBugsFrom (k + 1) ls

/-- The control keywords checked by the python missing-colon rule, in
source order. -/
def pyControls : List String :=
  ["if", "for", "while", "def", "class", "else", "elif"]

/-- Python missing-colon rule: per line, per control keyword (inner loop
over `controlStructures`), flag a trimmed line starting with the keyword
and not ending with `:`. -/
def colonBugsFrom (k : Nat) : List (List Char) → List RawBug
  | [] => []
  | l :: ls =>
    (pyControls.filterMap fun st =>
      let t := trimChars l
      if startsWithS st t && !endsWithS ":" t then
        some { type := "syntax",
               message := "Missing colon after " ++ st ++ " statement",
               line := .num (k + 1), fix := "Add colon after the statement" }
      else none) ++ colonBugsFrom (k + 1) ls

/-- `checkSyntaxErrors(code, language)` producing raw findings (the
`switch (language)` with cases javascript / python / java / cpp and no
default). -/
def checkSyntaxErrorsRaw (code : List Char) (language : String) :
    List RawBug :=
  let lines := splitLines code
  if language = "javascript" then
    missingSemiBugsFrom jsSemiCond 0 lines ++ braceBugs code ++
    callBugs code ++ quoteBugs code
  else if language = "python" then
    indentBugsFrom 0 lines ++ colonBugsFrom 0 lines ++ callBugs code
  else if language = "java" then
    missingSemiBugsFrom javaSemiCond 0 lines ++
    (if !containsS "public class" code then
      [{ type := "syntax", message := "Missing public class declaration",
         line := .num 1, fix := "Add public class declaration" }]
     else []) ++
    (if !containsS "public static void main" code then
      [{ type := "syntax", message := "Missing main method",
         line := .multiple, fix := "Add public static void main method" }]
     else [])
  else if language = "cpp" then
    missingSemiBugsFrom cppSemiCond 0 lines ++
    (if containsS "cout" code && !containsS "#include <iostream>" code then
      [{ type := "syntax", message := "Missing iostream include",
         line := .num 1,
         fix := "Add #include <iostream> at the beginning of the file" }]
     else []) ++
    (if containsS "cout" code && !containsS "using namespace std;" code then
      [{ type := "syntax", message := "Missing namespace declaration",
         line := .multiple, fix := "Add using namespace std; after includes" }]
     else [])
  else []

/-- The fix text `Declare variable ${varName} before using it`. -/
def undefVarFix (v : List Char) : String :=
  String.mk ("Declare variable ".data ++ v ++ " before using it".data)

/-- `checkRuntimeErrors(code, language)` producing raw findings. -/
def checkRuntimeErrorsRaw (code : List Char) (language : String) :
    List RawBug :=
  if language = "javascript" then
    let decls := declMatches code
    (identTokens code).filterMap fun varName =>
      if !decls.any (fun d => occursIn varName d) then
        some { type := "runtime", message := "Potential undefined variable",
               line := .num (lineOfFirstL code varName),
               fix := undefVarFix varName }
      else none
  else if language = "python" then
    if containsS "/" code then
      [{ type := "runtime", message := "Potential division by zero",
         line := .num (lineOfFirstS code "/"),
         fix := "Add check for zero before division" }]
    else []
  else if language = "java" then
    if containsS "." code && !containsS "null" code then
      [{ type := "runtime", message := "Potential null pointer exception",
         line := .num (lineOfFirstS code "."),
         fix := "Add null check before accessing object methods" }]
    else []
  else if language = "cpp" then
    if containsS "new " code && !containsS "delete " code then
      [{ type := "runtime", message := "Potential memory leak",
         line := .num (lineOfFirstS code "new "),
         fix := "Add delete statement to free allocated memory" }]
    else []
  else []

/-- The unreachable-code trigger:
`code.includes('return') && code.includes('return', code.indexOf('return') + 7)`. -/
def unreachableCond (code : List Char) : Bool :=
  match firstOcc "return".data code with
  | none => false
  | some i => occursIn "return".data (code.drop (i + 7))

/-- `checkLogicalErrors(code, language)` producing raw findings (the
`language` parameter is unused in the source). -/
def checkLogicalErrorsRaw (code : List Char) (_language : String) :
    List RawBug :=
  (if containsS "while(true)" code || containsS "for(;;)" code then
    [{ type := "logical", message := "Potential infinite loop",
       line := .num (lineOfFirstP code
         (fun l => containsS "while(true)" l || containsS "for(;;)" l)),
       fix := "Add proper loop termination condition" }]
   else []) ++
  (if unreachableCond code then
    [{ type := "logical", message := "Unreachable code after return statement",
       line := .num (lineOfFirstS code "return"),
       fix := "Remove code after return statement or restructure logic" }]
   else [])

/-- `checkSecurityIssues(code, language)` producing raw findings (the
`language` parameter is unused in the source). -/
def checkSecurityIssuesRaw (code : List Char) (_language : String) :
    List RawBug :=
  (if containsS "SELECT" code || containsS "INSERT" code ||
      containsS "UPDATE" code then
    [{ type := "security", message := "Potential SQL injection vulnerability",
       line := .num (lineOfFirstP code
         (fun l => containsS "SELECT" l || containsS "INSERT" l ||
                   containsS "UPDATE" l)),
       fix := "Use parameterized queries or prepared statements" }]
   else []) ++
  (if containsS "innerHTML" code || containsS "document.write" code then
    [{ type := "security", message := "Potential XSS vulnerability",
       line := .num (lineOfFirstP code
         (fun l => containsS "innerHTML" l || containsS "document.write" l)),
       fix := "Use textContent instead of innerHTML or sanitize input" }]
   else [])

/-- All raw findings of one analysis, in checker order
(syntax, runtime, logical, security). -/
def analyzePotentialBugsRaw (code : List Char) (language : String) :
    List RawBug :=
  checkSyntaxErrorsRaw code language ++ checkRuntimeErrorsRaw code language ++
  checkLogicalErrorsRaw code language ++ checkSecurityIssuesRaw code language

/-- `analyzePotentialBugs(code, language)`: every pushed raw finding passed
through `generateFix` with the same `language`. -/
def analyzePotentialBugs (code : List Char) (language : String) :
    List Finding :=
  (analyzePotentialBugsRaw code language).map (generateFix · language)

/-! ## Metrics Calculator

JavaScript floating-point arithmetic on these small statistics is
modelled by exact rationals; the threshold literals `0.1`, `0.2`, `0.7`,
`0.9` are modelled by the corresponding rationals. -/

/-- The accumulated complexity score of `calculateComplexity`: control
keyword matches + `{` count + parenthesized-group matches. -/
def complexityScore (code : List Char) : Nat :=
  (ctrlKwMatches code).length + countChar '\x7b' code +
  (parenGroupMatches code).length

/-- `calculateComplexity(code, language)` (the `language` parameter and
the `lines` local are unused in the source). -/
def calculateComplexity (code : List Char) (_language : String) : String :=
  let complexity := complexityScore code
  if complexity > 20 then "High"
  else if complexity > 10 then "Medium"
  else "Low"

/-- `calculateMaintainability(code)`. -/
def calculateMaintainability (code : List Char) : String :=
  let lines := splitLines code
  let avgLineLength : Rat :=
    ((lines.map (fun l => (l.length : Rat))).sum) / (lines.length : Rat)
  let longLines : Nat := (lines.filter (fun l => l.length > 80)).length
  if avgLineLength > 100 ∨ (longLines : Rat) > (lines.length : Rat) * (2/10) then
    "Low"
  else if avgLineLength > 80 ∨ (longLines : Rat) > (lines.length : Rat) * (1/10) then
    "Medium"
  else "High"

/-- `calculateReadability(code)`. -/
def calculateReadability (code : List Char) : String :=
  let lines := splitLines code
  let indentationConsistency : Bool :=
    lines.all fun l =>
      startsWithS "  " l || startsWithS "\t" l || (trimChars l).isEmpty
  let variableNaming := lowerTokens code
  let descriptiveNames : Nat :=
    (variableNaming.filter (fun n => n.length > 3)).length
  if !indentationConsistency ∨
     (descriptiveNames : Rat) < (variableNaming.length : Rat) * (7/10) then
    "Low"
  else if (descriptiveNames : Rat) < (variableNaming.length : Rat) * (9/10) then
    "Medium"
  else "High"

/-- `calculateEfficiency(code)`. -/
def calculateEfficiency (code : List Char) : String :=
  let lines := splitLines code
  let loops := (loopKwMatches code).length
  let nestedLoops := (nestedLoopMatches code).length
  if nestedLoops > 0 then "Low"
  else if (loops : Rat) > (lines.length : Rat) * (2/10) then "Medium"
  else "High"

/-! ## Suggestion Generator -/

/-- Language-specific suggestions (the `switch (language)` block inside
`generateSuggestions`). -/
def langSuggestions (code : List Char) (language : String) :
    List Suggestion :=
  if language = "javascript" then
    (if containsS "var " code then
      [{ message := "Use const or let instead of var for better scoping",
         ex := { before := "var counter = 0;\nvar name = \"John\";",
                 after := "const name = \"John\";\nlet counter = 0;" } }]
     else []) ++
    (if containsS "function()" code || containsS "function ()" code then
      [{ message := "Consider using arrow functions for better readability",
         ex := { before := "function multiply(a, b) \x7b\n    return a * b;\n\x7d",
                 after := "const multiply = (a, b) => a * b;" } }]
     else []) ++
    (if containsS "==" code || containsS "!=" code then
      [{ message := "Use strict equality operators (=== and !==) instead of loose equality",
         ex := { before := "if (value == \"5\") \x7b\n    console.log(\"Equal\");\n\x7d",
                 after := "if (value === \"5\") \x7b\n    console.log(\"Equal\");\n\x7d" } }]
     else [])
  else if language = "python" then
    (if containsS "print(" code then
      [{ message := "Consider using logging instead of print statements",
         ex := { before := "print(\"Error occurred\")",
                 after := "import logging\nlogging.error(\"Error occurred\")" } }]
     else []) ++
    (if containsS "global " code then
      [{ message := "Avoid using global variables, consider passing values as parameters",
         ex := { before := "global counter\ndef increment():\n    global counter\n    counter += 1",
                 after := "def increment(counter):\n    return counter + 1" } }]
     else [])
  else if language = "java" then
    (if !containsS "public class" code then
      [{ message := "Add proper access modifiers to classes and methods",
         ex := { before := "class Calculator \x7b\n    int add(int a, int b) \x7b\n        return a + b;\n    \x7d\n\x7d",
                 after := "public class Calculator \x7b\n    public int add(int a, int b) \x7b\n        return a + b;\n    \x7d\n\x7d" } }]
     else [])
  else if language = "cpp" then
    (if containsS "using namespace std;" code then
      [{ message := "Avoid using namespace std, use specific using declarations instead",
         ex := { before := "using namespace std;\ncout << \"Hello\";",
                 after := "using std::cout;\ncout << \"Hello\";" } }]
     else [])
  else []

/-- `generateSuggestions(code, language)`. -/
def generateSuggestions (code : List Char) (language : String) :
    List Suggestion :=
  (if !containsS "//" code && !containsS "/*" code then
    [{ message := "Add comments to explain complex logic and important sections",
       ex := { before := "function calculateTotal(items) \x7b\n    return items.reduce((sum, item) => sum + item.price, 0);\n\x7d",
               after := "// Calculate the total price of all items in the cart\nfunction calculateTotal(items) \x7b\n    // Use reduce to sum up all item prices\n    return items.reduce((sum, item) => sum + item.price, 0);\n\x7d" } }]
   else []) ++
  (if !containsS "try" code && !containsS "catch" code then
    [{ message := "Implement proper error handling with try-catch blocks",
       ex := { before := "function divide(a, b) \x7b\n    return a / b;\n\x7d",
               after := "function divide(a, b) \x7b\n    try \x7b\n        if (b === 0) throw new Error(\"Division by zero\");\n        return a / b;\n    \x7d catch (error) \x7b\n        console.error(\"Error:\", error.message);\n        return null;\n    \x7d\n\x7d" } }]
   else []) ++
  (if containsS "  " code && containsS "\t" code then
    [{ message := "Use consistent indentation (either spaces or tabs, not both)",
       ex := { before := "function example() \x7b\n\tconsole.log(\"tab\");\n  console.log(\"spaces\");\n\x7d",
               after := "function example() \x7b\n    console.log(\"consistent\");\n    console.log(\"spaces\");\n\x7d" } }]
   else []) ++
  (if ((lowerTokens code).filter (fun n => n.length < 3)).length > 0 then
    [{ message := "Use more descriptive variable names (avoid single or double letter names)",
       ex := { before := "let x = 5;\nlet y = 10;\nlet z = x + y;",
               after := "let firstNumber = 5;\nlet secondNumber = 10;\nlet sum = firstNumber + secondNumber;" } }]
   else []) ++
  langSuggestions code language ++
  (if containsS "for" code && containsS "for" code then
    [{ message := "Consider optimizing nested loops for better performance",
       ex := { before := "for (let i = 0; i < array.length; i++) \x7b\n    for (let j = 0; j < array.length; j++) \x7b\n        console.log(array[i][j]);\n    \x7d\n\x7d",
               after := "const length = array.length;\nfor (let i = 0; i < length; i++) \x7b\n    for (let j = 0; j < length; j++) \x7b\n        console.log(array[i][j]);\n    \x7d\n\x7d" } }]
   else []) ++
  (if containsS "eval(" code || containsS "Function(" code then
    [{ message := "Avoid using eval() or Function() constructor as they can lead to security vulnerabilities",
       ex := { before := "eval(userInput);",
               after := "// Use safer alternatives\nconst result = parseFloat(userInput);\nif (!isNaN(result)) \x7b\n    // Process the number\n\x7d" } }]
   else [])

/-! ## Best-Practices Provider -/

/-- The `javascript` entry of the `practices` table. -/
def jsBestPractices : List String :=
  ["Use const for values that won\x27t be reassigned",
   "Use arrow functions for callbacks",
   "Implement proper error handling",
   "Use template literals for string interpolation",
   "Follow the principle of least privilege"]

/-- The `python` entry of the `practices` table. -/
def pyBestPractices : List String :=
  ["Follow PEP 8 style guide",
   "Use virtual environments",
   "Implement proper exception handling",
   "Use type hints for better code clarity",
   "Write docstrings for functions and classes"]

/-- The `java` entry of the `practices` table. -/
def javaBestPractices : List String :=
  ["Follow Java naming conventions",
   "Use appropriate access modifiers",
   "Implement proper exception handling",
   "Use interfaces for abstraction",
   "Follow SOLID principles"]

/-- The `cpp` entry of the `practices` table. -/
def cppBestPractices : List String :=
  ["Use smart pointers instead of raw pointers",
   "Follow RAII principles",
   "Use const where appropriate",
   "Implement proper memory management",
   "Use modern C++ features"]

/-- `generateBestPractices(language)`:
`return practices[language] || practices.javascript;`.  An own key of the
table returns its (truthy, non-empty) array.  A key the object literal
inherits from `Object.prototype` — `constructor`, `toString`, … — returns
the inherited member, which is truthy, so the `||` passes it through and
the caller gets a built-in function instead of a list.  Only for every
other key is `practices[language]` `undefined` (falsy) and the javascript
list returned. -/
def generateBestPractices (language : String) : PracticesValue :=
  if language = "javascript" then .list jsBestPractices
  else if language = "python" then .list pyBestPractices
  else if language = "java" then .list javaBestPractices
  else if language = "cpp" then .list cppBestPractices
  else if language ∈ objectProtoKeys then .protoMember language
  else .list jsBestPractices

/-! ## Report Orchestrator -/

/-- `analyzeCode(code, language)`: the engine's single entry point.  Every
step is a total function, so the engine cannot raise for any input pair;
JavaScript's only degenerate computation here, the `codeToCommentRatio`
division, is modelled with `none` for a non-finite result. -/
def analyzeCode (codeStr language : String) : Report :=
  let code := codeStr.data
  let lines := splitLines code
  let totalLines := lines.length
  let commentLines :=
    (lines.filter fun l =>
      let t := trimChars l
      startsWithS "//" t || startsWithS "/*" t || startsWithS "*" t ||
      startsWithS "#" t).length
  let functionCount :=
    (lines.filter fun l =>
      containsS "function" l || containsS "def " l ||
      containsS "class " l).length
  let potentialBugs := analyzePotentialBugs code language
  { codeAnalysis :=
      { language := language
        totalLines := totalLines
        commentLines := commentLines
        functionCount := functionCount
        complexity := calculateComplexity code language
        codeToCommentPct :=
          if totalLines = 0 then none
          else some (((commentLines : Rat) / (totalLines : Rat)) * 100) }
    suggestions := generateSuggestions code language
    bestPractices := generateBestPractices language
    metrics :=
      { maintainability := calculateMaintainability code
        readability := calculateReadability code
        efficiency := calculateEfficiency code }
    debugging :=
      { bugs := potentialBugs
        bugCount := potentialBugs.length
        bugTypes :=
          { syntaxCount :=
              (potentialBugs.filter (fun b => b.type == "syntax")).length
            runtimeCount :=
              (potentialBugs.filter (fun b => b.type == "runtime")).length
            logicalCount :=
              (potentialBugs.filter (fun b => b.type == "logical")).length
            securityCount :=
              (potentialBugs.filter (fun b => b.type == "security")).length } } }

/-! ## Verification layer

Helper definitions used only by the theorems below, then lemmas about the
embedded engine, then one theorem (with witness or counterexample where
required) per specification claim. -/

/-- The ranking Low < Medium < High used to state monotonicity of the
complexity metric. -/
def complexityRank (s : String) : Nat :=
  if s = "High" then 2 else if s = "Medium" then 1 else 0

/-- Keys a finding's message must avoid for the catalog lookup chain to
behave generically: the language-table keys, the fix field names, and the
property names inherited from `Object.prototype`.  Every message the
checkers actually emit avoids all of them. -/
def badMessages : List String :=
  ["javascript", "python", "java", "cpp", "before", "after", "explanation"]
    ++ objectProtoKeys

theorem languageFixesOf_spec (t lang : String) :
    languageFixesOf t lang = none ∨
    languageFixesOf t lang = some jsSyntaxFixes ∨
    languageFixesOf t lang = some pySyntaxFixes ∨
    languageFixesOf t lang = some javaSyntaxFixes ∨
    languageFixesOf t lang = some cppSyntaxFixes ∨
    languageFixesOf t lang = some syntaxFixes ∨
    languageFixesOf t lang = some jsRuntimeFixes ∨
    languageFixesOf t lang = some pyRuntimeFixes ∨
    languageFixesOf t lang = some javaRuntimeFixes ∨
    languageFixesOf t lang = some cppRuntimeFixes ∨
    languageFixesOf t lang = some runtimeFixes ∨
    languageFixesOf t lang = some logicalFixes ∨
    languageFixesOf t lang = some infLoopFix ∨
    languageFixesOf t lang = some unreachFix ∨
    languageFixesOf t lang = some securityFixes ∨
    languageFixesOf t lang = some sqlFix ∨
    languageFixesOf t lang = some xssFix ∨
    (∃ n, languageFixesOf t lang = some (JVal.protoMember n)) := by
  by_cases h1 : t = "syntax"
  · subst h1
    by_cases l1 : lang = "javascript"
    · subst l1; right; left; rfl
    by_cases l2 : lang = "python"
    · subst l2; right; right; left; rfl
    by_cases l3 : lang = "java"
    · subst l3; right; right; right; left; rfl
    by_cases l4 : lang = "cpp"
    · subst l4; right; right; right; right; left; rfl
    by_cases lp : lang ∈ objectProtoKeys
    · iterate 17 right
      refine ⟨lang, ?_⟩
      simp [languageFixesOf, fixesCatalog, syntaxFixes, jget, assocGet,
        jtruthy, l1, l2, l3, l4, lp]
    · right; right; right; right; right; left
      simp [languageFixesOf, fixesCatalog, syntaxFixes, jget, assocGet,
        l1, l2, l3, l4, lp]
  by_cases h2 : t = "runtime"
  · subst h2
    by_cases l1 : lang = "javascript"
    · subst l1; iterate 6 right
      left; rfl
    by_cases l2 : lang = "python"
    · subst l2; iterate 7 right
      left; rfl
    by_cases l3 : lang = "java"
    · subst l3; iterate 8 right
      left; rfl
    by_cases l4 : lang = "cpp"
    · subst l4; iterate 9 right
      left; rfl
    by_cases lp : lang ∈ objectProtoKeys
    · iterate 17 right
      refine ⟨lang, ?_⟩
      simp [languageFixesOf, fixesCatalog, runtimeFixes, jget, assocGet,
        jtruthy, l1, l2, l3, l4, lp]
    · iterate 10 right
      left
      simp [languageFixesOf, fixesCatalog, runtimeFixes, jget, assocGet,
        l1, l2, l3, l4, lp]
  by_cases h3 : t = "logical"
  · subst h3
    by_cases l1 : lang = "Potential infinite loop"
    · subst l1; iterate 12 right
      left; rfl
    by_cases l2 : lang = "Unreachable code"
    · subst l2; iterate 13 right
      left; rfl
    by_cases lp : lang ∈ objectProtoKeys
    · iterate 17 right
      refine ⟨lang, ?_⟩
      simp [languageFixesOf, fixesCatalog, logicalFixes, jget, assocGet,
        jtruthy, l1, l2, lp]
    · iterate 11 right
      left
      simp [languageFixesOf, fixesCatalog, logicalFixes, jget, assocGet,
        l1, l2, lp]
  by_cases h4 : t = "security"
  · subst h4
    by_cases l1 : lang = "Potential SQL injection vulnerability"
    · subst l1; iterate 15 right
      left; rfl
    by_cases l2 : lang = "Potential XSS vulnerability"
    · subst l2; iterate 16 right
      left; rfl
    by_cases lp : lang ∈ objectProtoKeys
    · iterate 17 right
      refine ⟨lang, ?_⟩
      simp [languageFixesOf, fixesCatalog, securityFixes, jget, assocGet,
        jtruthy, l1, l2, lp]
    · iterate 14 right
      left
      simp [languageFixesOf, fixesCatalog, securityFixes, jget, assocGet,
        l1, l2, lp]
  by_cases tp : t ∈ objectProtoKeys
  · iterate 17 right
    refine ⟨t, ?_⟩
    simp [languageFixesOf, fixesCatalog, jget, assocGet, h1, h2, h3, h4, tp]
  · left
    simp [languageFixesOf, fixesCatalog, jget, assocGet, h1, h2, h3, h4, tp]

theorem resolvedFixObj_spec (b : RawBug) (lang : String)
    (hmsg : b.message ∉ badMessages) :
    resolvedFixObj b lang = fallbackFix b ∨
    ∃ x y z, resolvedFixObj b lang = fixEntry x y z ∧
      x ≠ "" ∧ y ≠ "" ∧ z ≠ "" := by
  have hbase : b.message ∉ ["javascript", "python", "java", "cpp",
      "before", "after", "explanation"] := fun hc =>
    hmsg (by simp only [badMessages, List.mem_append]; exact Or.inl hc)
  have hproto : b.message ∉ objectProtoKeys := fun hc =>
    hmsg (by simp only [badMessages, List.mem_append]; exact Or.inr hc)
  simp only [List.mem_cons, List.not_mem_nil, or_false, not_or] at hbase
  obtain ⟨hm1, hm2, hm3, hm4, hm5, hm6, hm7⟩ := hbase
  unfold resolvedFixObj
  rcases languageFixesOf_spec b.type lang with
    h|h|h|h|h|h|h|h|h|h|h|h|h|h|h|h|h|⟨n, h⟩ <;> rw [h]
  · left; rfl
  · -- jsSyntaxFixes
    by_cases k1 : b.message = "Missing semicolon"
    · right; exact ⟨_, _, _, by rw [k1]; rfl, by decide, by decide, by decide⟩
    by_cases k2 : b.message = "Unmatched curly braces"
    · right; exact ⟨_, _, _, by rw [k2]; rfl, by decide, by decide, by decide⟩
    · left; simp [jsSyntaxFixes, jget, assocGet, k1, k2, hproto]
  · -- pySyntaxFixes
    by_cases k1 : b.message = "Incorrect indentation"
    · right; exact ⟨_, _, _, by rw [k1]; rfl, by decide, by decide, by decide⟩
    · left; simp [pySyntaxFixes, jget, assocGet, k1, hproto]
  · -- javaSyntaxFixes
    by_cases k1 : b.message = "Missing semicolon"
    · right; exact ⟨_, _, _, by rw [k1]; rfl, by decide, by decide, by decide⟩
    · left; simp [javaSyntaxFixes, jget, assocGet, k1, hproto]
  · -- cppSyntaxFixes
    by_cases k1 : b.message = "Missing semicolon"
    · right; exact ⟨_, _, _, by rw [k1]; rfl, by decide, by decide, by decide⟩
    · left; simp [cppSyntaxFixes, jget, assocGet, k1, hproto]
  · -- syntaxFixes (outer table: keys are language names)
    left; simp [syntaxFixes, jget, assocGet, hm1, hm2, hm3, hm4, hproto]
  · -- jsRuntimeFixes
    by_cases k1 : b.message = "Potential undefined variable"
    · right; exact ⟨_, _, _, by rw [k1]; rfl, by decide, by decide, by decide⟩
    · left; simp [jsRuntimeFixes, jget, assocGet, k1, hproto]
  · -- pyRuntimeFixes
    by_cases k1 : b.message = "Potential division by zero"
    · right; exact ⟨_, _, _, by rw [k1]; rfl, by decide, by decide, by decide⟩
    · left; simp [pyRuntimeFixes, jget, assocGet, k1, hproto]
  · -- javaRuntimeFixes
    by_cases k1 : b.message = "Potential null pointer exception"
    · right; exact ⟨_, _, _, by rw [k1]; rfl, by decide, by decide, by decide⟩
    · left; simp [javaRuntimeFixes, jget, assocGet, k1, hproto]
  · -- cppRuntimeFixes
    by_cases k1 : b.message = "Potential memory leak"
    · right; exact ⟨_, _, _, by rw [k1]; rfl, by decide, by decide, by decide⟩
    · left; simp [cppRuntimeFixes, jget, assocGet, k1, hproto]
  · -- runtimeFixes (outer table)
    left; simp [runtimeFixes, jget, assocGet, hm1, hm2, hm3, hm4, hproto]
  · -- logicalFixes
    by_cases k1 : b.message = "Potential infinite loop"
    · right; exact ⟨_, _, _, by rw [k1]; rfl, by decide, by decide, by decide⟩
    by_cases k2 : b.message = "Unreachable code"
    · right; exact ⟨_, _, _, by rw [k2]; rfl, by decide, by decide, by decide⟩
    · left; simp [logicalFixes, jget, assocGet, k1, k2, hproto]
  · -- infLoopFix (a fix entry: keys are before/after/explanation)
    left; simp [infLoopFix, fixEntry, jget, assocGet, hm5, hm6, hm7, hproto]
  · -- unreachFix
    left; simp [unreachFix, fixEntry, jget, assocGet, hm5, hm6, hm7, hproto]
  · -- securityFixes
    by_cases k1 : b.message = "Potential SQL injection vulnerability"
    · right; exact ⟨_, _, _, by rw [k1]; rfl, by decide, by decide, by decide⟩
    by_cases k2 : b.message = "Potential XSS vulnerability"
    · right; exact ⟨_, _, _, by rw [k2]; rfl, by decide, by decide, by decide⟩
    · left; simp [securityFixes, jget, assocGet, k1, k2, hproto]
  · -- sqlFix
    left; simp [sqlFix, fixEntry, jget, assocGet, hm5, hm6, hm7, hproto]
  · -- xssFix
    left; simp [xssFix, fixEntry, jget, assocGet, hm5, hm6, hm7, hproto]
  · -- an inherited Object.prototype member: message lookup is undefined
    left; rfl

theorem synthFix_nonempty (b : RawBug) (lang : String)
    (hfix : b.fix ≠ "") (hmsg : b.message ∉ badMessages) :
    (synthFix b lang).before ≠ "" ∧ (synthFix b lang).after ≠ "" ∧
    (synthFix b lang).explanation ≠ "" := by
  rcases resolvedFixObj_spec b lang hmsg with h | ⟨x, y, z, h, hx, hy, hz⟩
  · have hb : synthFix b lang = ⟨"Original code", b.fix, b.fix⟩ := by
      simp [synthFix, h, fallbackFix, jget, assocGet, jstr]
    rw [hb]
    exact ⟨by simp, hfix, hfix⟩
  · have hb : synthFix b lang = ⟨x, y, z⟩ := by
      simp [synthFix, h, fixEntry, jget, assocGet, jstr]
    rw [hb]
    exact ⟨hx, hy, hz⟩

theorem mem_missingSemiBugsFrom {cond : List Char → Bool} {k : Nat}
    {ls : List (List Char)} {b : RawBug}
    (hb : b ∈ missingSemiBugsFrom cond k ls) :
    ∃ n, n < ls.length ∧ cond (trimChars (ls.getD n [])) = true ∧
      b = { type := "syntax", message := "Missing semicolon",
            line := .num (k + n + 1),
            fix := "Add semicolon at the end of the statement" } := by
  induction ls generalizing k with
  | nil => simp [missingSemiBugsFrom] at hb
  | cons l ls ih =>
    rw [missingSemiBugsFrom] at hb
    rcases List.mem_append.mp hb with h | h
    · by_cases hc : cond (trimChars l)
      · refine ⟨0, by simp, by simpa using hc, ?_⟩
        simp [hc] at h
        simpa using h
      · simp [hc] at h
    · obtain ⟨n, hn, hcond, rfl⟩ := ih h
      refine ⟨n + 1, by simpa using hn, by simpa using hcond, ?_⟩
      simp only [RawBug.mk.injEq, LineRef.num.injEq, true_and, and_true]
      omega

theorem count_missingSemiBugsFrom (cond : List Char → Bool)
    (ls : List (List Char)) (k n : Nat) :
    ((missingSemiBugsFrom cond k ls).filter
      (fun b => b.line == LineRef.num (k + n + 1))).length =
    if n < ls.length ∧ cond (trimChars (ls.getD n [])) = true then 1 else 0 := by
  induction ls generalizing k n with
  | nil => simp [missingSemiBugsFrom]
  | cons l ls ih =>
    rw [missingSemiBugsFrom, List.filter_append, List.length_append]
    cases n with
    | zero =>
      have htail : (missingSemiBugsFrom cond (k + 1) ls).filter
          (fun b => b.line == LineRef.num (k + 0 + 1)) = [] := by
        apply List.filter_eq_nil_iff.mpr
        intro b hb
        obtain ⟨m, _, _, rfl⟩ := mem_missingSemiBugsFrom hb
        simp only [beq_iff_eq, LineRef.num.injEq]
        omega
      rw [htail]
      by_cases hc : cond (trimChars l) <;> simp [hc]
    | succ n =>
      have hhead : ((if cond (trimChars l) then
          [{ type := "syntax", message := "Missing semicolon",
             line := .num (k + 1),
             fix := "Add semicolon at the end of the statement" : RawBug}]
          else []).filter
          (fun b => b.line == LineRef.num (k + (n + 1) + 1))) = [] := by
        by_cases hc : cond (trimChars l) <;> simp [hc]
      rw [hhead]
      have harith : k + (n + 1) + 1 = (k + 1) + n + 1 := by omega
      rw [harith]
      simpa using ih (k + 1) n

theorem undefVarFix_ne (v : List Char) : undefVarFix v ≠ "" := by
  intro h
  have hd := congrArg String.data h
  simp only [undefVarFix] at hd
  have : ("Declare variable ".data ++ v ++ " before using it".data : List Char) = [] := hd
  rcases List.append_eq_nil.mp this with ⟨h1, _⟩
  rcases List.append_eq_nil.mp h1 with ⟨h2, _⟩
  exact absurd h2 (by decide)

theorem mem_indentBugsFrom {k : Nat} {ls : List (List Char)} {b : RawBug}
    (hb : b ∈ indentBugsFrom k ls) :
    ∃ n, b = { type := "syntax", message := "Incorrect indentation",
               line := .num n, fix := "Use 4 spaces for indentation" } := by
  induction ls generalizing k with
  | nil => simp [indentBugsFrom] at hb
  | cons l ls ih =>
    rw [indentBugsFrom] at hb
    rcases List.mem_append.mp hb with h | h
    · by_cases hc : (l.takeWhile jsWS).length % 4 ≠ 0
      · simp [hc] at h
        exact ⟨k + 1, by simpa using h⟩
      · simp [hc] at h
    · exact ih h

theorem mem_colonBugsFrom {k : Nat} {ls : List (List Char)} {b : RawBug}
    (hb : b ∈ colonBugsFrom k ls) :
    ∃ st ∈ pyControls, ∃ n,
      b = { type := "syntax", message := "Missing colon after " ++ st ++ " statement",
            line := .num n, fix := "Add colon after the statement" } := by
  induction ls generalizing k with
  | nil => simp [colonBugsFrom] at hb
  | cons l ls ih =>
    rw [colonBugsFrom] at hb
    rcases List.mem_append.mp hb with h | h
    · obtain ⟨st, hst, hf⟩ := List.mem_filterMap.mp h
      refine ⟨st, hst, k + 1, ?_⟩
      by_cases hc : startsWithS st (trimChars l) && !endsWithS ":" (trimChars l)
      · simp [hc] at hf
        exact hf.symm
      · simp [hc] at hf
    · exact ih h

theorem mem_ifSingleton {c : Prop} [Decidable c] {x b : RawBug}
    (hb : b ∈ (if c then [x] else [])) : b = x := by
  split_ifs at hb <;> simp_all

theorem mem_braceBugs {code : List Char} {b : RawBug}
    (hb : b ∈ braceBugs code) :
    b = { type := "syntax", message := "Unmatched curly braces",
          line := .multiple,
          fix := "Check and match all opening and closing braces" } := by
  unfold braceBugs at hb
  exact mem_ifSingleton hb

theorem mem_callBugs {code : List Char} {b : RawBug}
    (hb : b ∈ callBugs code) :
    ∃ n, b = { type := "syntax",
               message := "Missing closing parenthesis in function call",
               line := .num n,
               fix := "Add closing parenthesis to complete the function call" } := by
  unfold callBugs at hb
  obtain ⟨m, _, rfl⟩ := List.mem_map.mp hb
  exact ⟨_, rfl⟩

theorem mem_quoteBugs {code : List Char} {b : RawBug}
    (hb : b ∈ quoteBugs code) :
    ∃ n, b = { type := "syntax", message := "Unclosed string literal",
               line := .num n,
               fix := "Add closing quote to complete the string" } := by
  unfold quoteBugs at hb
  obtain ⟨m, _, rfl⟩ := List.mem_map.mp hb
  exact ⟨_, rfl⟩

theorem checkSyntaxErrorsRaw_js (code : List Char) :
    checkSyntaxErrorsRaw code "javascript" =
      missingSemiBugsFrom jsSemiCond 0 (splitLines code) ++ braceBugs code ++
      callBugs code ++ quoteBugs code := rfl

theorem checkSyntaxErrorsRaw_py (code : List Char) :
    checkSyntaxErrorsRaw code "python" =
      indentBugsFrom 0 (splitLines code) ++ colonBugsFrom 0 (splitLines code) ++
      callBugs code := rfl

theorem checkSyntaxErrorsRaw_java (code : List Char) :
    checkSyntaxErrorsRaw code "java" =
      missingSemiBugsFrom javaSemiCond 0 (splitLines code) ++
      (if !containsS "public class" code then
        [{ type := "syntax", message := "Missing public class declaration",
           line := .num 1, fix := "Add public class declaration" }]
       else []) ++
      (if !containsS "public static void main" code then
        [{ type := "syntax", message := "Missing main method",
           line := .multiple, fix := "Add public static void main method" }]
       else []) := rfl

theorem checkSyntaxErrorsRaw_cpp (code : List Char) :
    checkSyntaxErrorsRaw code "cpp" =
      missingSemiBugsFrom cppSemiCond 0 (splitLines code) ++
      (if containsS "cout" code && !containsS "#include <iostream>" code then
        [{ type := "syntax", message := "Missing iostream include",
           line := .num 1,
           fix := "Add #include <iostream> at the beginning of the file" }]
       else []) ++
      (if containsS "cout" code && !containsS "using namespace std;" code then
        [{ type := "syntax", message := "Missing namespace declaration",
           line := .multiple,
           fix := "Add using namespace std; after includes" }]
       else []) := rfl

theorem checkSyntaxErrorsRaw_other (code : List Char) (lang : String)
    (h1 : lang ≠ "javascript") (h2 : lang ≠ "python") (h3 : lang ≠ "java")
    (h4 : lang ≠ "cpp") : checkSyntaxErrorsRaw code lang = [] := by
  simp only [checkSyntaxErrorsRaw, h1, h2, h3, h4, reduceIte]

theorem checkRuntimeErrorsRaw_js (code : List Char) :
    checkRuntimeErrorsRaw code "javascript" =
      (identTokens code).filterMap fun varName =>
        if !(declMatches code).any (fun d => occursIn varName d) then
          some { type := "runtime", message := "Potential undefined variable",
                 line := .num (lineOfFirstL code varName),
                 fix := undefVarFix varName }
        else none := rfl

theorem checkRuntimeErrorsRaw_py (code : List Char) :
    checkRuntimeErrorsRaw code "python" =
      if containsS "/" code then
        [{ type := "runtime", message := "Potential division by zero",
           line := .num (lineOfFirstS code "/"),
           fix := "Add check for zero before division" }]
      else [] := rfl

theorem checkRuntimeErrorsRaw_java (code : List Char) :
    checkRuntimeErrorsRaw code "java" =
      if containsS "." code && !containsS "null" code then
        [{ type := "runtime", message := "Potential null pointer exception",
           line := .num (lineOfFirstS code "."),
           fix := "Add null check before accessing object methods" }]
      else [] := rfl

theorem checkRuntimeErrorsRaw_cpp (code : List Char) :
    checkRuntimeErrorsRaw code "cpp" =
      if containsS "new " code && !containsS "delete " code then
        [{ type := "runtime", message := "Potential memory leak",
           line := .num (lineOfFirstS code "new "),
           fix := "Add delete statement to free allocated memory" }]
      else [] := rfl

theorem checkRuntimeErrorsRaw_other (code : List Char) (lang : String)
    (h1 : lang ≠ "javascript") (h2 : lang ≠ "python") (h3 : lang ≠ "java")
    (h4 : lang ≠ "cpp") : checkRuntimeErrorsRaw code lang = [] := by
  simp only [checkRuntimeErrorsRaw, h1, h2, h3, h4, reduceIte]

theorem checkLogicalErrorsRaw_eq (code : List Char) (lang : String) :
    checkLogicalErrorsRaw code lang =
      (if containsS "while(true)" code || containsS "for(;;)" code then
        [{ type := "logical", message := "Potential infinite loop",
           line := .num (lineOfFirstP code
             (fun l => containsS "while(true)" l || containsS "for(;;)" l)),
           fix := "Add proper loop termination condition" }]
       else []) ++
      (if unreachableCond code then
        [{ type := "logical",
           message := "Unreachable code after return statement",
           line := .num (lineOfFirstS code "return"),
           fix := "Remove code after return statement or restructure logic" }]
       else []) := rfl

theorem checkSecurityIssuesRaw_eq (code : List Char) (lang : String) :
    checkSecurityIssuesRaw code lang =
      (if containsS "SELECT" code || containsS "INSERT" code ||
          containsS "UPDATE" code then
        [{ type := "security",
           message := "Potential SQL injection vulnerability",
           line := .num (lineOfFirstP code
             (fun l => containsS "SELECT" l || containsS "INSERT" l ||
                       containsS "UPDATE" l)),
           fix := "Use parameterized queries or prepared statements" }]
       else []) ++
      (if containsS "innerHTML" code || containsS "document.write" code then
        [{ type := "security", message := "Potential XSS vulnerability",
           line := .num (lineOfFirstP code
             (fun l => containsS "innerHTML" l || containsS "document.write" l)),
           fix := "Use textContent instead of innerHTML or sanitize input" }]
       else []) := rfl

theorem checkSyntax_good (code : List Char) (lang : String) :
    ∀ b ∈ checkSyntaxErrorsRaw code lang,
      b.type = "syntax" ∧ b.fix ≠ "" ∧ b.message ∉ badMessages := by
  intro b hb
  by_cases hl1 : lang = "javascript"
  · subst hl1
    rw [checkSyntaxErrorsRaw_js] at hb
    simp only [List.mem_append] at hb
    rcases hb with ((hb | hb) | hb) | hb
    · obtain ⟨n, _, _, rfl⟩ := mem_missingSemiBugsFrom hb
      exact ⟨rfl, by simp, by simp [badMessages, objectProtoKeys]⟩
    · rcases mem_braceBugs hb with rfl
      exact ⟨rfl, by simp, by simp [badMessages, objectProtoKeys]⟩
    · obtain ⟨n, rfl⟩ := mem_callBugs hb
      exact ⟨rfl, by simp, by simp [badMessages, objectProtoKeys]⟩
    · obtain ⟨n, rfl⟩ := mem_quoteBugs hb
      exact ⟨rfl, by simp, by simp [badMessages, objectProtoKeys]⟩
  by_cases hl2 : lang = "python"
  · subst hl2
    rw [checkSyntaxErrorsRaw_py] at hb
    simp only [List.mem_append] at hb
    rcases hb with (hb | hb) | hb
    · obtain ⟨n, rfl⟩ := mem_indentBugsFrom hb
      exact ⟨rfl, by simp, by simp [badMessages, objectProtoKeys]⟩
    · obtain ⟨st, hst, n, rfl⟩ := mem_colonBugsFrom hb
      refine ⟨rfl, by simp, ?_⟩
      simp only [pyControls, List.mem_cons, List.not_mem_nil, or_false] at hst
      rcases hst with rfl | rfl | rfl | rfl | rfl | rfl | rfl <;>
        simp [badMessages, objectProtoKeys]
    · obtain ⟨n, rfl⟩ := mem_callBugs hb
      exact ⟨rfl, by simp, by simp [badMessages, objectProtoKeys]⟩
  by_cases hl3 : lang = "java"
  · subst hl3
    rw [checkSyntaxErrorsRaw_java] at hb
    simp only [List.mem_append] at hb
    rcases hb with (hb | hb) | hb
    · obtain ⟨n, _, _, rfl⟩ := mem_missingSemiBugsFrom hb
      exact ⟨rfl, by simp, by simp [badMessages, objectProtoKeys]⟩
    · rcases mem_ifSingleton hb with rfl
      exact ⟨rfl, by simp, by simp [badMessages, objectProtoKeys]⟩
    · rcases mem_ifSingleton hb with rfl
      exact ⟨rfl, by simp, by simp [badMessages, objectProtoKeys]⟩
  by_cases hl4 : lang = "cpp"
  · subst hl4
    rw [checkSyntaxErrorsRaw_cpp] at hb
    simp only [List.mem_append] at hb
    rcases hb with (hb | hb) | hb
    · obtain ⟨n, _, _, rfl⟩ := mem_missingSemiBugsFrom hb
      exact ⟨rfl, by simp, by simp [badMessages, objectProtoKeys]⟩
    · rcases mem_ifSingleton hb with rfl
      exact ⟨rfl, by simp, by simp [badMessages, objectProtoKeys]⟩
    · rcases mem_ifSingleton hb with rfl
      exact ⟨rfl, by simp, by simp [badMessages, objectProtoKeys]⟩
  · rw [checkSyntaxErrorsRaw_other code lang hl1 hl2 hl3 hl4] at hb
    simp at hb

theorem checkRuntime_good (code : List Char) (lang : String) :
    ∀ b ∈ checkRuntimeErrorsRaw code lang,
      b.type = "runtime" ∧ b.fix ≠ "" ∧ b.message ∉ badMessages := by
  intro b hb
  by_cases hl1 : lang = "javascript"
  · subst hl1
    rw [checkRuntimeErrorsRaw_js] at hb
    obtain ⟨v, _, hf⟩ := List.mem_filterMap.mp hb
    by_cases hc : !(declMatches code).any (fun d => occursIn v d)
    · rw [if_pos hc] at hf
      cases hf
      exact ⟨rfl, undefVarFix_ne v, by simp [badMessages, objectProtoKeys]⟩
    · rw [if_neg hc] at hf
      cases hf
  by_cases hl2 : lang = "python"
  · subst hl2
    rw [checkRuntimeErrorsRaw_py] at hb
    rcases mem_ifSingleton hb with rfl
    exact ⟨rfl, by simp, by simp [badMessages, objectProtoKeys]⟩
  by_cases hl3 : lang = "java"
  · subst hl3
    rw [checkRuntimeErrorsRaw_java] at hb
    rcases mem_ifSingleton hb with rfl
    exact ⟨rfl, by simp, by simp [badMessages, objectProtoKeys]⟩
  by_cases hl4 : lang = "cpp"
  · subst hl4
    rw [checkRuntimeErrorsRaw_cpp] at hb
    rcases mem_ifSingleton hb with rfl
    exact ⟨rfl, by simp, by simp [badMessages, objectProtoKeys]⟩
  · rw [checkRuntimeErrorsRaw_other code lang hl1 hl2 hl3 hl4] at hb
    simp at hb

theorem checkLogical_good (code : List Char) (lang : String) :
    ∀ b ∈ checkLogicalErrorsRaw code lang,
      b.type = "logical" ∧ b.fix ≠ "" ∧ b.message ∉ badMessages := by
  intro b hb
  rw [checkLogicalErrorsRaw_eq] at hb
  rcases List.mem_append.mp hb with hb | hb
  · rcases mem_ifSingleton hb with rfl
    exact ⟨rfl, by simp, by simp [badMessages, objectProtoKeys]⟩
  · rcases mem_ifSingleton hb with rfl
    exact ⟨rfl, by simp, by simp [badMessages, objectProtoKeys]⟩

theorem checkSecurity_good (code : List Char) (lang : String) :
    ∀ b ∈ checkSecurityIssuesRaw code lang,
      b.type = "security" ∧ b.fix ≠ "" ∧ b.message ∉ badMessages := by
  intro b hb
  rw [checkSecurityIssuesRaw_eq] at hb
  rcases List.mem_append.mp hb with hb | hb
  · rcases mem_ifSingleton hb with rfl
    exact ⟨rfl, by simp, by simp [badMessages, objectProtoKeys]⟩
  · rcases mem_ifSingleton hb with rfl
    exact ⟨rfl, by simp, by simp [badMessages, objectProtoKeys]⟩

theorem rawBug_good (code : List Char) (lang : String) :
    ∀ b ∈ analyzePotentialBugsRaw code lang,
      (b.type = "syntax" ∨ b.type = "runtime" ∨ b.type = "logical" ∨
        b.type = "security") ∧
      b.fix ≠ "" ∧ b.message ∉ badMessages := by
  intro b hb
  rcases List.mem_append.mp hb with hb | hb
  rotate_left
  · obtain ⟨h1, h2, h3⟩ := checkSecurity_good code lang b hb
    exact ⟨Or.inr (Or.inr (Or.inr h1)), h2, h3⟩
  rcases List.mem_append.mp hb with hb | hb
  rotate_left
  · obtain ⟨h1, h2, h3⟩ := checkLogical_good code lang b hb
    exact ⟨Or.inr (Or.inr (Or.inl h1)), h2, h3⟩
  rcases List.mem_append.mp hb with hb | hb
  · obtain ⟨h1, h2, h3⟩ := checkSyntax_good code lang b hb
    exact ⟨Or.inl h1, h2, h3⟩
  · obtain ⟨h1, h2, h3⟩ := checkRuntime_good code lang b hb
    exact ⟨Or.inr (Or.inl h1), h2, h3⟩

theorem splitLines_ne_nil (l : List Char) : splitLines l ≠ [] := by
  unfold splitLines
  split
  · simp
  · simp
  · split <;> simp

theorem analyzeCode_bugs (code language : String) :
    (analyzeCode code language).debugging.bugs =
      analyzePotentialBugs code.data language := rfl

theorem generateFix_type (b : RawBug) (lang : String) :
    (generateFix b lang).type = b.type := rfl

theorem generateFix_message (b : RawBug) (lang : String) :
    (generateFix b lang).message = b.message := rfl

theorem generateFix_line (b : RawBug) (lang : String) :
    (generateFix b lang).line = b.line := rfl

/-- C1: every Finding in a Report's `debugging.bugs` carries a fix with
non-empty `before`, `after` and `explanation`, for every `(code, language)`
input (catalog hit or generic fallback alike). -/
theorem C1_every_fix_nonempty (code language : String) :
    ∀ f ∈ (analyzeCode code language).debugging.bugs,
      f.fix.before ≠ "" ∧ f.fix.after ≠ "" ∧ f.fix.explanation ≠ "" := by
  intro f hf
  rw [analyzeCode_bugs] at hf
  unfold analyzePotentialBugs at hf
  obtain ⟨b, hb, rfl⟩ := List.mem_map.mp hf
  obtain ⟨_, h2, h3⟩ := rawBug_good code.data language b hb
  exact synthFix_nonempty b language h2 h3

/-- Witness for C1 at a concrete input whose single finding resolves
through the generic fallback (its message has no catalog entry). -/
theorem C1_every_fix_nonempty_witness :
    ((⟨"logical", "Unreachable code after return statement", .num 1,
        ⟨"Original code",
         "Remove code after return statement or restructure logic",
         "Remove code after return statement or restructure logic"⟩⟩ : Finding)
      ∈ (analyzeCode "return a; return b" "ruby").debugging.bugs) ∧
    ((⟨"logical", "Unreachable code after return statement", .num 1,
        ⟨"Original code",
         "Remove code after return statement or restructure logic",
         "Remove code after return statement or restructure logic"⟩⟩ :
        Finding).fix.before ≠ "" ∧
     (⟨"logical", "Unreachable code after return statement", .num 1,
        ⟨"Original code",
         "Remove code after return statement or restructure logic",
         "Remove code after return statement or restructure logic"⟩⟩ :
        Finding).fix.after ≠ "" ∧
     (⟨"logical", "Unreachable code after return statement", .num 1,
        ⟨"Original code",
         "Remove code after return statement or restructure logic",
         "Remove code after return statement or restructure logic"⟩⟩ :
        Finding).fix.explanation ≠ "") :=
  have hm : (⟨"logical", "Unreachable code after return statement", .num 1,
      ⟨"Original code",
       "Remove code after return statement or restructure logic",
       "Remove code after return statement or restructure logic"⟩⟩ : Finding)
      ∈ (analyzeCode "return a; return b" "ruby").debugging.bugs := by decide
  ⟨hm, C1_every_fix_nonempty "return a; return b" "ruby" _ hm⟩

/-- C3: the engine is a total function of `(code, language)` — no input
raises — and the only degenerate computation, the `codeToCommentRatio`
division, always yields a defined value (a split source always has at
least one line); for empty source the ratio is `0`. -/
theorem C3_never_fails (language : String) :
    (∀ code : String,
      ((analyzeCode code language).codeAnalysis.codeToCommentPct).isSome
        = true) ∧
    (analyzeCode "" language).codeAnalysis.codeToCommentPct = some 0 := by
  constructor
  · intro code
    have h := splitLines_ne_nil code.data
    have hlen : (splitLines code.data).length ≠ 0 := by
      simpa [List.length_eq_zero] using h
    simp only [analyzeCode]
    rw [if_neg hlen]
    rfl
  · simp only [analyzeCode]
    norm_num [splitLines]
    decide

/-- C4: for a language outside {javascript, python, java, cpp} the
language-specific checkers contribute nothing: no finding of type
`syntax` and none of type `runtime`. -/
theorem C4_unknown_language_no_syntax_runtime (code language : String)
    (h : language ∉ ["javascript", "python", "java", "cpp"]) :
    ∀ f ∈ (analyzeCode code language).debugging.bugs,
      f.type ≠ "syntax" ∧ f.type ≠ "runtime" := by
  simp only [List.mem_cons, List.not_mem_nil, or_false, not_or] at h
  obtain ⟨h1, h2, h3, h4⟩ := h
  intro f hf
  rw [analyzeCode_bugs] at hf
  unfold analyzePotentialBugs analyzePotentialBugsRaw at hf
  rw [checkSyntaxErrorsRaw_other _ _ h1 h2 h3 h4,
      checkRuntimeErrorsRaw_other _ _ h1 h2 h3 h4] at hf
  simp only [List.nil_append, List.map_append, List.mem_append] at hf
  rcases hf with hf | hf
  · obtain ⟨b, hb, rfl⟩ := List.mem_map.mp hf
    have hty := (checkLogical_good code.data language b hb).1
    constructor <;> · rw [generateFix_type, hty]; decide
  · obtain ⟨b, hb, rfl⟩ := List.mem_map.mp hf
    have hty := (checkSecurity_good code.data language b hb).1
    constructor <;> · rw [generateFix_type, hty]; decide

/-- Witness for C4 at `("innerHTML", "ruby")`. -/
theorem C4_unknown_language_no_syntax_runtime_witness :
    ("ruby" ∉ ["javascript", "python", "java", "cpp"]) ∧
    (∀ f ∈ (analyzeCode "innerHTML" "ruby").debugging.bugs,
      f.type ≠ "syntax" ∧ f.type ≠ "runtime") :=
  ⟨by decide, C4_unknown_language_no_syntax_runtime "innerHTML" "ruby"
    (by decide)⟩

/-- C9 counterexample: `"constructor"` is outside the best-practices
table, yet `practices["constructor"]` resolves through the prototype
chain to the inherited (truthy) `constructor` function, which the `||`
passes through — the report's `bestPractices` is not the javascript
list. -/
theorem C9_counterexample :
    ("constructor" ∉ ["javascript", "python", "java", "cpp"]) ∧
    (analyzeCode "x" "constructor").bestPractices =
      PracticesValue.protoMember "constructor" ∧
    (analyzeCode "x" "constructor").bestPractices ≠
      PracticesValue.list jsBestPractices := by
  decide

/-- C9 (amended): for a language outside the best-practices table that is
also not the name of a property inherited from `Object.prototype`, the
report's `bestPractices` is exactly the javascript list; for a language
naming an inherited property, the engine instead returns that inherited
member (a built-in function, not a list of guidance strings). -/
theorem C9_best_practices_fallback :
    (∀ code language : String,
      language ∉ ["javascript", "python", "java", "cpp"] →
      language ∉ objectProtoKeys →
      (analyzeCode code language).bestPractices =
        PracticesValue.list jsBestPractices) ∧
    (∀ code language : String,
      language ∉ ["javascript", "python", "java", "cpp"] →
      language ∈ objectProtoKeys →
      (analyzeCode code language).bestPractices =
        PracticesValue.protoMember language) := by
  constructor
  · intro code language h hp
    simp only [List.mem_cons, List.not_mem_nil, or_false, not_or] at h
    obtain ⟨h1, h2, h3, h4⟩ := h
    have hbp : (analyzeCode code language).bestPractices =
        generateBestPractices language := rfl
    rw [hbp]
    simp [generateBestPractices, h1, h2, h3, h4, hp]
  · intro code language h hp
    simp only [List.mem_cons, List.not_mem_nil, or_false, not_or] at h
    obtain ⟨h1, h2, h3, h4⟩ := h
    have hbp : (analyzeCode code language).bestPractices =
        generateBestPractices language := rfl
    rw [hbp]
    simp [generateBestPractices, h1, h2, h3, h4, hp]

/-- Witness for the amended C9: the javascript fallback at `("x", "ruby")`
and the inherited member at `("x", "constructor")`. -/
theorem C9_best_practices_fallback_witness :
    (analyzeCode "x" "ruby").bestPractices =
      PracticesValue.list jsBestPractices ∧
    (analyzeCode "x" "constructor").bestPractices =
      PracticesValue.protoMember "constructor" :=
  ⟨C9_best_practices_fallback.1 "x" "ruby" (by decide) (by decide),
   C9_best_practices_fallback.2 "x" "constructor" (by decide) (by decide)⟩

theorem filter_four_partition (l : List Finding)
    (h : ∀ f ∈ l, f.type = "syntax" ∨ f.type = "runtime" ∨
      f.type = "logical" ∨ f.type = "security") :
    (l.filter (fun b => b.type == "syntax")).length +
    (l.filter (fun b => b.type == "runtime")).length +
    (l.filter (fun b => b.type == "logical")).length +
    (l.filter (fun b => b.type == "security")).length = l.length := by
  induction l with
  | nil => simp
  | cons f l ih =>
    have hf := h f (List.mem_cons_self f l)
    have hih := ih fun g hg => h g (List.mem_cons_of_mem f hg)
    rcases hf with h1 | h1 | h1 | h1 <;>
      · simp only [List.filter_cons, h1]
        simp
        omega

/-- C10: `bugCount` is the length of `bugs`, and the four per-type
counters sum to it, because every finding's type is one of the four. -/
theorem C10_counters_consistent (code language : String) :
    (analyzeCode code language).debugging.bugCount =
      (analyzeCode code language).debugging.bugs.length ∧
    (analyzeCode code language).debugging.bugTypes.syntaxCount +
      (analyzeCode code language).debugging.bugTypes.runtimeCount +
      (analyzeCode code language).debugging.bugTypes.logicalCount +
      (analyzeCode code language).debugging.bugTypes.securityCount =
      (analyzeCode code language).debugging.bugCount := by
  refine ⟨rfl, ?_⟩
  have htypes : ∀ f ∈ analyzePotentialBugs code.data language,
      f.type = "syntax" ∨ f.type = "runtime" ∨ f.type = "logical" ∨
      f.type = "security" := by
    intro f hf
    obtain ⟨b, hb, rfl⟩ := List.mem_map.mp hf
    exact (rawBug_good code.data language b hb).1
  exact filter_four_partition (analyzePotentialBugs code.data language) htypes

/-- C5 (code bug): on `code = "def test():\nprint(\"test\")"`,
`language = "python"`, the engine produces no finding at all — in
particular no `syntax`/`'Incorrect indentation'` finding — because both
lines have leading-whitespace length 0, a multiple of 4, and the checker
never tracks the indentation expected after a `:`-terminated line. -/
theorem C5_python_example_no_finding :
    (analyzeCode "def test():\nprint(\"test\")" "python").debugging.bugs
      = [] := by decide

/-- C2 counterexample: `code = "{"` has unbalanced brace counts, yet with
`language = "python"` the Bug Finder emits no
`syntax`/`'Unmatched curly braces'` finding (the brace rule only runs in
the javascript branch), refuting "regardless of the declared language". -/
theorem C2_counterexample :
    countChar '\x7b' "\x7b".data ≠ countChar '\x7d' "\x7b".data ∧
    ((analyzeCode "\x7b" "python").debugging.bugs.filter
      (fun f => f.type == "syntax" &&
        f.message == "Unmatched curly braces")).length = 0 := by
  decide

theorem filter_mapGF (lang : String) (P : Finding → Bool) (Q : RawBug → Bool)
    (hPQ : ∀ b, P (generateFix b lang) = Q b) (L : List RawBug) :
    (L.map (generateFix · lang)).filter P =
      (L.filter Q).map (generateFix · lang) := by
  rw [List.filter_map]
  congr 1
  exact List.filter_congr (fun b _ => hPQ b)

/-- C2 (amended to javascript): when the `{` and `}` counts differ, the
report for `language = "javascript"` contains exactly one
`syntax`/`'Unmatched curly braces'` finding, and its line field is the
non-numeric multiple-lines marker. -/
theorem C2_unmatched_braces_javascript (code : String)
    (h : countChar '\x7b' code.data ≠ countChar '\x7d' code.data) :
    (analyzeCode code "javascript").debugging.bugs.filter
      (fun f => f.type == "syntax" &&
        f.message == "Unmatched curly braces") =
    [⟨"syntax", "Unmatched curly braces", .multiple,
      ⟨"if (true) \x7b\n    console.log(\"test\")\n",
       "if (true) \x7b\n    console.log(\"test\");\n\x7d",
       "Ensure all opening braces have matching closing braces"⟩⟩] := by
  rw [analyzeCode_bugs]
  unfold analyzePotentialBugs analyzePotentialBugsRaw
  rw [checkSyntaxErrorsRaw_js,
    filter_mapGF "javascript" _
      (fun b => b.type == "syntax" && b.message == "Unmatched curly braces")
      (fun b => rfl)]
  simp only [List.filter_append]
  have h1 : (missingSemiBugsFrom jsSemiCond 0 (splitLines code.data)).filter
      (fun b => b.type == "syntax" &&
        b.message == "Unmatched curly braces") = [] := by
    refine List.filter_eq_nil_iff.mpr fun b hb => ?_
    obtain ⟨n, _, _, rfl⟩ := mem_missingSemiBugsFrom hb
    simp
  have h2 : (braceBugs code.data).filter
      (fun b => b.type == "syntax" &&
        b.message == "Unmatched curly braces") =
      [⟨"syntax", "Unmatched curly braces", .multiple,
        "Check and match all opening and closing braces"⟩] := by
    unfold braceBugs
    rw [if_pos h]
    rfl
  have h3 : (callBugs code.data).filter
      (fun b => b.type == "syntax" &&
        b.message == "Unmatched curly braces") = [] := by
    refine List.filter_eq_nil_iff.mpr fun b hb => ?_
    obtain ⟨n, rfl⟩ := mem_callBugs hb
    simp
  have h4 : (quoteBugs code.data).filter
      (fun b => b.type == "syntax" &&
        b.message == "Unmatched curly braces") = [] := by
    refine List.filter_eq_nil_iff.mpr fun b hb => ?_
    obtain ⟨n, rfl⟩ := mem_quoteBugs hb
    simp
  have h5 : (checkRuntimeErrorsRaw code.data "javascript").filter
      (fun b => b.type == "syntax" &&
        b.message == "Unmatched curly braces") = [] := by
    refine List.filter_eq_nil_iff.mpr fun b hb => ?_
    have := (checkRuntime_good code.data "javascript" b hb).1
    simp [this]
  have h6 : (checkLogicalErrorsRaw code.data "javascript").filter
      (fun b => b.type == "syntax" &&
        b.message == "Unmatched curly braces") = [] := by
    refine List.filter_eq_nil_iff.mpr fun b hb => ?_
    have := (checkLogical_good code.data "javascript" b hb).1
    simp [this]
  have h7 : (checkSecurityIssuesRaw code.data "javascript").filter
      (fun b => b.type == "syntax" &&
        b.message == "Unmatched curly braces") = [] := by
    refine List.filter_eq_nil_iff.mpr fun b hb => ?_
    have := (checkSecurity_good code.data "javascript" b hb).1
    simp [this]
  rw [h1, h2, h3, h4, h5, h6, h7]
  rfl

/-- Witness for the amended C2 at `code = "{"`. -/
theorem C2_unmatched_braces_javascript_witness :
    countChar '\x7b' "\x7b".data ≠ countChar '\x7d' "\x7b".data ∧
    (analyzeCode "\x7b" "javascript").debugging.bugs.filter
      (fun f => f.type == "syntax" &&
        f.message == "Unmatched curly braces") =
    [⟨"syntax", "Unmatched curly braces", .multiple,
      ⟨"if (true) \x7b\n    console.log(\"test\")\n",
       "if (true) \x7b\n    console.log(\"test\");\n\x7d",
       "Ensure all opening braces have matching closing braces"⟩⟩] :=
  ⟨by decide, C2_unmatched_braces_javascript "\x7b" (by decide)⟩

theorem occursIn_cons_false {pat : List Char} {c : Char} {cs : List Char}
    (h : occursIn pat (c :: cs) = false) :
    pat.isPrefixOf (c :: cs) = false ∧ occursIn pat cs = false := by
  rw [occursIn] at h
  simpa using h

theorem altStep_none {kws : List (List Char)} {s : List Char}
    (h : ∀ kw ∈ kws, kw.isPrefixOf s = false) : altStep kws s = none := by
  induction kws with
  | nil => rfl
  | cons kw rest ih =>
    rw [altStep, h kw (List.mem_cons_self _ _)]
    exact ih fun k hk => h k (List.mem_cons_of_mem _ hk)

theorem scanMatches_altStep_nil (kws : List (List Char)) :
    ∀ (fuel : Nat) (s : List Char),
      (∀ kw ∈ kws, occursIn kw s = false) →
      scanMatches (altStep kws) fuel s = [] := by
  intro fuel
  induction fuel with
  | zero => intro s _; rfl
  | succ fuel ih =>
    intro s h
    cases s with
    | nil => rfl
    | cons c cs =>
      have hstep : altStep kws (c :: cs) = none :=
        altStep_none fun kw hkw => (occursIn_cons_false (h kw hkw)).1
      simp only [scanMatches, hstep]
      exact ih cs fun kw hkw => (occursIn_cons_false (h kw hkw)).2

theorem parenStep_none {c : Char} {cs : List Char} (h : c ≠ '(') :
    parenStep (c :: cs) = none := by
  simp [parenStep, h]

theorem scanMatches_paren_nil :
    ∀ (fuel : Nat) (s : List Char), (∀ ch ∈ s, ch ≠ '(') →
      scanMatches parenStep fuel s = [] := by
  intro fuel
  induction fuel with
  | zero => intro s _; rfl
  | succ fuel ih =>
    intro s h
    cases s with
    | nil => rfl
    | cons c cs =>
      have hstep : parenStep (c :: cs) = none :=
        parenStep_none (h c (List.mem_cons_self _ _))
      simp only [scanMatches, hstep]
      exact ih cs fun ch hch => h ch (List.mem_cons_of_mem _ hch)

theorem complexityScore_zero {code : List Char}
    (hkw : ∀ kw ∈ ["if", "else", "for", "while", "switch", "catch"],
      containsS kw code = false)
    (hbrace : countChar '\x7b' code = 0)
    (hparen : ∀ ch ∈ code, ch ≠ '(') :
    complexityScore code = 0 := by
  unfold complexityScore ctrlKwMatches parenGroupMatches
  rw [scanMatches_altStep_nil _ _ _ ?hocc, scanMatches_paren_nil _ _ hparen,
    hbrace]
  case hocc =>
    intro kw hkw'
    simp only [List.map_cons, List.map_nil, List.mem_cons,
      List.not_mem_nil, or_false] at hkw'
    rcases hkw' with rfl | rfl | rfl | rfl | rfl | rfl
    · exact hkw "if" (by simp)
    · exact hkw "else" (by simp)
    · exact hkw "for" (by simp)
    · exact hkw "while" (by simp)
    · exact hkw "switch" (by simp)
    · exact hkw "catch" (by simp)
  rfl

/-- C8: the complexity classification is monotone non-decreasing
(Low < Medium < High) in the summed control-keyword / brace /
parenthesized-group score, and an input with none of those tokens (in
particular any single-line such input) gets complexity exactly `Low`. -/
theorem C8_complexity_monotone_and_low :
    (∀ (c1 c2 lang1 lang2 : String),
      complexityScore c1.data ≤ complexityScore c2.data →
      complexityRank (calculateComplexity c1.data lang1) ≤
        complexityRank (calculateComplexity c2.data lang2)) ∧
    (∀ (c lang : String),
      (splitLines c.data).length = 1 →
      (∀ kw ∈ ["if", "else", "for", "while", "switch", "catch"],
        containsS kw c.data = false) →
      countChar '\x7b' c.data = 0 →
      countChar '\x7d' c.data = 0 →
      (∀ ch ∈ c.data, ch ≠ '(' ∧ ch ≠ ')') →
      calculateComplexity c.data lang = "Low") := by
  constructor
  · intro c1 c2 lang1 lang2 hle
    simp only [calculateComplexity]
    split_ifs <;> simp [complexityRank] <;> omega
  · intro c lang _ hkw hbrace _ hparen
    have hscore : complexityScore c.data = 0 :=
      complexityScore_zero hkw hbrace fun ch hch => (hparen ch hch).1
    simp [calculateComplexity, hscore]

/-- Witness for C8: monotone step from `"x"` (score 0) to `"if(a)"`, and
the Low case at `"abc"`. -/
theorem C8_complexity_monotone_and_low_witness :
    complexityRank (calculateComplexity "x".data "javascript") ≤
      complexityRank (calculateComplexity "if(a)".data "javascript") ∧
    calculateComplexity "abc".data "ruby" = "Low" :=
  ⟨C8_complexity_monotone_and_low.1 "x" "if(a)" "javascript" "javascript"
      (by decide),
   C8_complexity_monotone_and_low.2 "abc" "ruby" (by decide) (by decide)
      (by decide) (by decide) (by decide)⟩

theorem jsSemiCond_iff (t : List Char) :
    jsSemiCond t = true ↔
    (t ≠ [] ∧ endsWithS ";" t = false ∧ endsWithS "\x7b" t = false ∧
     endsWithS "\x7d" t = false ∧ containsS "if" t = false ∧
     containsS "for" t = false ∧ containsS "while" t = false ∧
     containsS "function" t = false ∧ startsWithS "//" t = false ∧
     startsWithS "/*" t = false ∧ startsWithS "*" t = false ∧
     startsWithS "const" t = false ∧ startsWithS "let" t = false ∧
     startsWithS "var" t = false) := by
  cases t with
  | nil => simp [jsSemiCond]
  | cons c cs =>
    simp [jsSemiCond, Bool.and_eq_true, Bool.not_eq_true', and_assoc]

/-- C6 counterexample: the trimmed line `"class A"` contains the keyword
`class` — which the claim lists as exempting — yet the javascript
missing-semicolon rule flags it at line 1. -/
theorem C6_counterexample :
    containsS "class" (trimChars "class A".data) = true ∧
    (∃ f ∈ (analyzeCode "class A" "javascript").debugging.bugs,
      f.type = "syntax" ∧ f.message = "Missing semicolon" ∧
      f.line = LineRef.num 1) := by
  decide

/-- C6 (amended: the keyword list is `if/for/while/function`, without
`class`): for `language = "javascript"` the report contains exactly one
`syntax`/`'Missing semicolon'` finding at 1-based line `n+1` precisely
when line `n` is non-empty after trimming, does not end with `;`, `{` or
`}`, contains none of `if`, `for`, `while`, `function`, and does not
start with `//`, `/*`, `*`, `const`, `let` or `var`. -/
theorem C6_missing_semicolon_rule (code : String) (n : Nat) :
    ((analyzeCode code "javascript").debugging.bugs.filter
      (fun f => f.type == "syntax" && f.message == "Missing semicolon" &&
        f.line == LineRef.num (n + 1))).length =
    if (trimChars ((splitLines code.data).getD n []) ≠ [] ∧
        endsWithS ";" (trimChars ((splitLines code.data).getD n [])) = false ∧
        endsWithS "\x7b" (trimChars ((splitLines code.data).getD n [])) = false ∧
        endsWithS "\x7d" (trimChars ((splitLines code.data).getD n [])) = false ∧
        containsS "if" (trimChars ((splitLines code.data).getD n [])) = false ∧
        containsS "for" (trimChars ((splitLines code.data).getD n [])) = false ∧
        containsS "while" (trimChars ((splitLines code.data).getD n [])) = false ∧
        containsS "function" (trimChars ((splitLines code.data).getD n [])) = false ∧
        startsWithS "//" (trimChars ((splitLines code.data).getD n [])) = false ∧
        startsWithS "/*" (trimChars ((splitLines code.data).getD n [])) = false ∧
        startsWithS "*" (trimChars ((splitLines code.data).getD n [])) = false ∧
        startsWithS "const" (trimChars ((splitLines code.data).getD n [])) = false ∧
        startsWithS "let" (trimChars ((splitLines code.data).getD n [])) = false ∧
        startsWithS "var" (trimChars ((splitLines code.data).getD n [])) = false)
    then 1 else 0 := by
  rw [analyzeCode_bugs]
  unfold analyzePotentialBugs analyzePotentialBugsRaw
  rw [checkSyntaxErrorsRaw_js,
    filter_mapGF "javascript" _
      (fun b => b.type == "syntax" && b.message == "Missing semicolon" &&
        b.line == LineRef.num (n + 1))
      (fun b => rfl)]
  rw [List.length_map]
  simp only [List.filter_append, List.length_append]
  have h2 : (braceBugs code.data).filter
      (fun b => b.type == "syntax" && b.message == "Missing semicolon" &&
        b.line == LineRef.num (n + 1)) = [] := by
    refine List.filter_eq_nil_iff.mpr fun b hb => ?_
    rcases mem_braceBugs hb with rfl
    simp
  have h3 : (callBugs code.data).filter
      (fun b => b.type == "syntax" && b.message == "Missing semicolon" &&
        b.line == LineRef.num (n + 1)) = [] := by
    refine List.filter_eq_nil_iff.mpr fun b hb => ?_
    obtain ⟨m, rfl⟩ := mem_callBugs hb
    simp
  have h4 : (quoteBugs code.data).filter
      (fun b => b.type == "syntax" && b.message == "Missing semicolon" &&
        b.line == LineRef.num (n + 1)) = [] := by
    refine List.filter_eq_nil_iff.mpr fun b hb => ?_
    obtain ⟨m, rfl⟩ := mem_quoteBugs hb
    simp
  have h5 : (checkRuntimeErrorsRaw code.data "javascript").filter
      (fun b => b.type == "syntax" && b.message == "Missing semicolon" &&
        b.line == LineRef.num (n + 1)) = [] := by
    refine List.filter_eq_nil_iff.mpr fun b hb => ?_
    have := (checkRuntime_good code.data "javascript" b hb).1
    simp [this]
  have h6 : (checkLogicalErrorsRaw code.data "javascript").filter
      (fun b => b.type == "syntax" && b.message == "Missing semicolon" &&
        b.line == LineRef.num (n + 1)) = [] := by
    refine List.filter_eq_nil_iff.mpr fun b hb => ?_
    have := (checkLogical_good code.data "javascript" b hb).1
    simp [this]
  have h7 : (checkSecurityIssuesRaw code.data "javascript").filter
      (fun b => b.type == "syntax" && b.message == "Missing semicolon" &&
        b.line == LineRef.num (n + 1)) = [] := by
    refine List.filter_eq_nil_iff.mpr fun b hb => ?_
    have := (checkSecurity_good code.data "javascript" b hb).1
    simp [this]
  rw [h2, h3, h4, h5, h6, h7]
  simp only [List.length_nil, Nat.add_zero]
  have hsemi : (missingSemiBugsFrom jsSemiCond 0 (splitLines code.data)).filter
      (fun b => b.type == "syntax" && b.message == "Missing semicolon" &&
        b.line == LineRef.num (n + 1)) =
      (missingSemiBugsFrom jsSemiCond 0 (splitLines code.data)).filter
      (fun b => b.line == LineRef.num (0 + n + 1)) := by
    refine List.filter_congr fun b hb => ?_
    obtain ⟨m, _, _, rfl⟩ := mem_missingSemiBugsFrom hb
    simp [Nat.zero_add]
  rw [hsemi, count_missingSemiBugsFrom]
  by_cases hn : n < (splitLines code.data).length
  · simp only [hn, true_and]
    rw [if_congr (jsSemiCond_iff _) rfl rfl]
  · rw [if_neg (by simp [hn]), if_neg ?hclaim]
    case hclaim =>
      rw [List.getD_eq_default _ _ (Nat.le_of_not_lt hn)]
      intro hcontra
      exact absurd rfl hcontra.1

theorem isPrefixOf_nil (pat : List Char) : pat.isPrefixOf [] = pat.isEmpty := by
  cases pat <;> rfl

theorem occursIn_iff (pat l : List Char) :
    occursIn pat l = true ↔ ∃ i, pat.isPrefixOf (l.drop i) = true := by
  induction l with
  | nil =>
    rw [occursIn]
    constructor
    · intro h
      exact ⟨0, by simpa [isPrefixOf_nil] using h⟩
    · rintro ⟨i, hi⟩
      simpa [isPrefixOf_nil] using hi
  | cons c cs ih =>
    rw [occursIn, Bool.or_eq_true]
    constructor
    · rintro (h | h)
      · exact ⟨0, by simpa using h⟩
      · obtain ⟨i, hi⟩ := ih.mp h
        exact ⟨i + 1, by simpa using hi⟩
    · rintro ⟨i, hi⟩
      cases i with
      | zero => exact Or.inl (by simpa using hi)
      | succ i => exact Or.inr (ih.mpr ⟨i, by simpa using hi⟩)

theorem firstOcc_eq_some_iff (pat : List Char) (hpat : pat.isEmpty = false) :
    ∀ (l : List Char) (i : Nat),
      firstOcc pat l = some i ↔
      (pat.isPrefixOf (l.drop i) = true ∧
       ∀ k < i, pat.isPrefixOf (l.drop k) = false) := by
  intro l
  induction l with
  | nil =>
    intro i
    rw [firstOcc, hpat]
    simp [isPrefixOf_nil, hpat]
  | cons c cs ih =>
    intro i
    rw [firstOcc]
    by_cases hpre : pat.isPrefixOf (c :: cs) = true
    · rw [if_pos hpre]
      constructor
      · intro h
        have h0 : (0 : Nat) = i := by simpa using h
        subst h0
        exact ⟨by simpa using hpre,
          fun k hk => absurd hk (Nat.not_lt_zero k)⟩
      · rintro ⟨_, h2⟩
        cases i with
        | zero => rfl
        | succ j =>
          have h0 := h2 0 (Nat.succ_pos j)
          rw [List.drop_zero] at h0
          rw [h0] at hpre
          cases hpre
    · have hpre' : pat.isPrefixOf (c :: cs) = false :=
        Bool.eq_false_iff.mpr hpre
      rw [if_neg hpre]
      cases i with
      | zero =>
        simp [Option.map_eq_some', hpre']
      | succ j =>
        rw [Option.map_eq_some']
        constructor
        · rintro ⟨a, ha, haj⟩
          rw [show a = j by omega] at ha
          obtain ⟨p1, p2⟩ := (ih j).mp ha
          refine ⟨by simpa using p1, ?_⟩
          intro k hk
          cases k with
          | zero => simpa using hpre'
          | succ m => simpa using p2 m (by omega)
        · rintro ⟨p1, p2⟩
          refine ⟨j, (ih j).mpr ⟨by simpa using p1, ?_⟩, rfl⟩
          intro k hk
          simpa using p2 (k + 1) (by omega)

theorem unreachableCond_iff (code : List Char) :
    unreachableCond code = true ↔
    ∃ i j, "return".data.isPrefixOf (code.drop i) = true ∧
      (∀ k < i, "return".data.isPrefixOf (code.drop k) = false) ∧
      i + 7 ≤ j ∧ "return".data.isPrefixOf (code.drop j) = true := by
  unfold unreachableCond
  constructor
  · intro h
    cases hfo : firstOcc "return".data code with
    | none => rw [hfo] at h; cases h
    | some i =>
      rw [hfo] at h
      obtain ⟨p1, p2⟩ := (firstOcc_eq_some_iff _ (by decide) code i).mp hfo
      obtain ⟨m, hm⟩ := (occursIn_iff _ _).mp h
      refine ⟨i, i + 7 + m, p1, p2, by omega, ?_⟩
      rwa [List.drop_drop] at hm
  · rintro ⟨i, j, p1, p2, hij, pj⟩
    have hfo : firstOcc "return".data code = some i :=
      (firstOcc_eq_some_iff _ (by decide) code i).mpr ⟨p1, p2⟩
    rw [hfo]
    apply (occursIn_iff _ _).mpr
    refine ⟨j - (i + 7), ?_⟩
    rw [List.drop_drop]
    have harith : (i + 7) + (j - (i + 7)) = j := by omega
    rw [harith]
    exact pj

/-- C7 counterexample: `"returnreturn"` contains two occurrences of
`return` (at offsets 0 and 6, the second after the first), yet the
logical checker emits no unreachable-code finding — the search restarts at
`indexOf('return') + 7` and skips an adjacent second occurrence. -/
theorem C7_counterexample :
    ("return".data.isPrefixOf ("returnreturn".data.drop 0) = true) ∧
    ("return".data.isPrefixOf ("returnreturn".data.drop 6) = true) ∧
    (0 : Nat) < 6 ∧
    ((analyzeCode "returnreturn" "ruby").debugging.bugs.filter
      (fun f => f.type == "logical" &&
        f.message == "Unreachable code after return statement")) = [] := by
  decide

/-- C7 (amended): the unreachable-code finding is emitted exactly when
`return` occurs at some offset at least 7 characters past the start of
its first occurrence; a second occurrence starting exactly 6 characters
after the first (adjacent) is missed. -/
theorem C7_unreachable_exactly_when (code language : String) :
    (∃ f ∈ (analyzeCode code language).debugging.bugs,
      f.type = "logical" ∧
      f.message = "Unreachable code after return statement") ↔
    (∃ i j, "return".data.isPrefixOf (code.data.drop i) = true ∧
      (∀ k < i, "return".data.isPrefixOf (code.data.drop k) = false) ∧
      i + 7 ≤ j ∧ "return".data.isPrefixOf (code.data.drop j) = true) := by
  rw [← unreachableCond_iff, analyzeCode_bugs]
  constructor
  · rintro ⟨f, hf, hty, hmsg⟩
    unfold analyzePotentialBugs at hf
    obtain ⟨b, hb, rfl⟩ := List.mem_map.mp hf
    rw [generateFix_type] at hty
    rw [generateFix_message] at hmsg
    rcases List.mem_append.mp hb with hb | hb
    rotate_left
    · have := (checkSecurity_good code.data language b hb).1
      rw [this] at hty
      exact absurd hty (by decide)
    rcases List.mem_append.mp hb with hb | hb
    rotate_left
    · rw [checkLogicalErrorsRaw_eq] at hb
      rcases List.mem_append.mp hb with hb | hb
      · rcases mem_ifSingleton hb with rfl
        exact absurd hmsg (by simp)
      · by_cases hc : unreachableCond code.data = true
        · exact hc
        · rw [if_neg (by simpa using hc)] at hb
          simp at hb
    rcases List.mem_append.mp hb with hb | hb
    · have := (checkSyntax_good code.data language b hb).1
      rw [this] at hty
      exact absurd hty (by decide)
    · have := (checkRuntime_good code.data language b hb).1
      rw [this] at hty
      exact absurd hty (by decide)
  · intro hc
    refine ⟨generateFix
      ⟨"logical", "Unreachable code after return statement",
        .num (lineOfFirstS code.data "return"),
        "Remove code after return statement or restructure logic"⟩
      language, ?_, rfl, rfl⟩
    unfold analyzePotentialBugs
    apply List.mem_map_of_mem
    apply List.mem_append.mpr
    left
    apply List.mem_append.mpr
    right
    rw [checkLogicalErrorsRaw_eq]
    apply List.mem_append.mpr
    right
    rw [if_pos (by simpa using hc)]
    simp

end CodeReviewer
